import Mathlib

/-!
Verification of the ai-resume-analyser repository.

This file gives a shallow embedding, in Lean 4, of the parts of the
repository that the specified properties talk about:

* the retry-wrapped storage operations of `src/app/lib/storage.ts`
  (`uploadFile`, `readFile`, `deleteFile`, `copyFile`, `moveFile`);
* the PDF-to-image conversion helper (`convertPdfToImage`,
  `attemptPdfConversion`);
* the `TrialTracker` React component of
  `src/app/components/TrialTracker.tsx`;
* the OAuth callback handler;
* the seed script `src/scripts/seed-data.mjs` and the migration runner
  `src/scripts/run-migrations.mjs`.

External services (Google Cloud Storage, the Postgres database, the
pdfjs library, the browser DOM, Google OAuth) are modelled by oracle
parameters that describe the outcome of each external call; everything
the repository code itself does with those outcomes is translated
faithfully, branch by branch.
-/

set_option autoImplicit false

/-- JS `String.prototype.includes`: `sub` occurs contiguously in `s`. -/
def strIncludes (s sub : String) : Bool :=
  s.toList.tails.any (fun t => sub.toList.isPrefixOf t)

/-- JS `String.prototype.toLowerCase`, character by character. -/
def jsToLower (s : String) : String :=
  String.mk (s.toList.map Char.toLower)

/-- JS `String.prototype.endsWith`. -/
def strEndsWith (s suffix : String) : Bool :=
  suffix.toList.isSuffixOf s.toList

/-- Trace of one execution of a retry loop: how many times the underlying
operation was attempted, and the backoff delays (in ms) that were waited,
in the order they were waited. -/
structure RetryTrace where
  attempts : Nat
  delays : List Nat
deriving Repr, DecidableEq

/-! ## storage.ts: module initialization state -/

/-- State of the lazily initialized storage module (storage.ts lines 14-56)
after `initializeStorage` has run: `initError` models the
`initializationError` variable and `bucketSet` models `bucket !== null`.
The construction of the GCS client itself is external and not modelled. -/
structure StorageInit where
  initError : Option String
  bucketSet : Bool

/-- storage.ts `ensureInitialized` (lines 49-56): rethrows the recorded
initialization error when there is one. -/
def ensureInitialized (st : StorageInit) : Except String Unit :=
  match st.initError with
  | some e => Except.error e
  | none => Except.ok ()

/-- storage.ts `FileMetadata` (lines 61-70); the two `Date` fields are
kept as strings. -/
structure FileMetadata where
  id : String
  name : String
  path : String
  size : Nat
  contentType : String
  url : String
deriving Repr, DecidableEq

/-! ## storage.ts: uploadFile -/

/-- The aggregated error thrown by `uploadFile` after exhausting all
attempts (storage.ts line 148); a null `lastError` renders as the JS
string "undefined" via template interpolation. -/
def uploadFailMsg (maxRetries : Nat) (lastError : Option String) : String :=
  "Failed to upload file after " ++ toString maxRetries ++ " attempts: " ++
    (match lastError with | some m => m | none => "undefined")

/-- The retry loop of `uploadFile` (storage.ts lines 106-148).
`op attempt` abstracts the GCS `save` + `getMetadata` calls of the given
1-indexed attempt.  `remaining` counts loop iterations still allowed
(initially `maxRetries`, so the loop body runs for attempts
`1..maxRetries`).  The returned trace records the attempts performed and
the backoff delays waited by this call. -/
def uploadGo (op : Nat → Except String FileMetadata) (maxRetries attempt : Nat) :
    Nat → Option String → Except String FileMetadata × RetryTrace
  | 0, lastError => (Except.error (uploadFailMsg maxRetries lastError), ⟨0, []⟩)
  | remaining + 1, _ =>
    match op attempt with
    | Except.ok m => (Except.ok m, ⟨1, []⟩)
    | Except.error e =>
      let rest := uploadGo op maxRetries (attempt + 1) remaining (some e)
      (rest.1, ⟨rest.2.attempts + 1,
        (if attempt < maxRetries then [500 * 2 ^ (attempt - 1)] else []) ++ rest.2.delays⟩)

/-- storage.ts `uploadFile` (lines 75-149): the validation preamble
followed by the retry loop.  The unique-path construction (uuid, folder
names) does not affect any verified property and is absorbed into the
oracle `op`. -/
def uploadFile (st : StorageInit) (file : List Nat) (fileName : String)
    (op : Nat → Except String FileMetadata) (maxRetries : Nat) :
    Except String FileMetadata × RetryTrace :=
  match ensureInitialized st with
  | Except.error e => (Except.error e, ⟨0, []⟩)
  | Except.ok _ =>
    if !st.bucketSet then
      (Except.error "GCS bucket not initialized. Check GCS_BUCKET_NAME environment variable.",
        ⟨0, []⟩)
    else if file.length = 0 then
      (Except.error "File data is empty or invalid", ⟨0, []⟩)
    else if fileName = "" then
      (Except.error "File name is required", ⟨0, []⟩)
    else
      uploadGo op maxRetries 1 maxRetries none

/-! ## storage.ts: readFile -/

/-- Outcome of the body of one `readFile` attempt: the `exists()` check
followed by `download()` (storage.ts lines 170-177). -/
inductive ReadAttempt where
  | notExists
  | found (contents : List Nat)
  | failed (msg : String)

/-- What one attempt of `readFile` produces: a missing file throws
`File not found: <path>` (storage.ts line 174). -/
def readAttemptResult (filePath : String) : ReadAttempt → Except String (List Nat)
  | ReadAttempt.notExists => Except.error ("File not found: " ++ filePath)
  | ReadAttempt.found b => Except.ok b
  | ReadAttempt.failed m => Except.error m

/-- Fallback error of `readFile` (storage.ts line 195), thrown only when
`lastError` is still null after the loop. -/
def readFallbackMsg (maxRetries : Nat) : String :=
  "Failed to read file after " ++ toString maxRetries ++ " attempts"

/-- The retry loop of `readFile` (storage.ts lines 166-195): an error
whose message contains "not found" is rethrown immediately; any other
error is retried with linear backoff `300 * attempt`, and after the loop
the last error is rethrown. -/
def readGo (op : Nat → Except String (List Nat)) (maxRetries attempt : Nat) :
    Nat → Option String → Except String (List Nat) × RetryTrace
  | 0, lastError =>
    (Except.error (match lastError with | some e => e | none => readFallbackMsg maxRetries),
      ⟨0, []⟩)
  | remaining + 1, _ =>
    match op attempt with
    | Except.ok b => (Except.ok b, ⟨1, []⟩)
    | Except.error e =>
      if strIncludes e "not found" then (Except.error e, ⟨1, []⟩)
      else
        let rest := readGo op maxRetries (attempt + 1) remaining (some e)
        (rest.1, ⟨rest.2.attempts + 1,
          (if attempt < maxRetries then [300 * attempt] else []) ++ rest.2.delays⟩)

/-- storage.ts `readFile` (lines 154-196).  `att` gives the 1-indexed
attempts their exists/download outcomes. -/
def readFile (st : StorageInit) (filePath : String) (att : Nat → ReadAttempt)
    (maxRetries : Nat) : Except String (List Nat) × RetryTrace :=
  match ensureInitialized st with
  | Except.error e => (Except.error e, ⟨0, []⟩)
  | Except.ok _ =>
    if !st.bucketSet then
      (Except.error "GCS bucket not initialized. Check GCS_BUCKET_NAME environment variable.",
        ⟨0, []⟩)
    else if filePath = "" then
      (Except.error "File path is required", ⟨0, []⟩)
    else
      readGo (fun i => readAttemptResult filePath (att i)) maxRetries 1 maxRetries none

/-! ## storage.ts: deleteFile, copyFile, moveFile

For these three functions the property of interest is how they change the
contents of the bucket and when they fail, so the bucket is modelled as a
finite map from object path to object content, and the two GCS calls that
can fail inside `deleteFile`'s try block (`exists()` and `delete()`) get
boolean failure oracles. -/

/-- The contents of the GCS bucket: a list of (path, content) pairs with
pairwise distinct paths. -/
structure Bucket where
  files : List (String × String)
deriving Repr, DecidableEq

/-- storage.ts `fileExists` underlying check: `file.exists()`. -/
def fileExistsIn (b : Bucket) (p : String) : Bool :=
  b.files.any (fun f => f.1 == p)

/-- storage.ts `deleteFile` (lines 237-255): after the initialization and
bucket checks, the whole exists/delete sequence lives inside a try block
whose catch only logs, so no storage failure propagates.  `existsFails`
(resp. `deleteFails`) makes the `exists()` (resp. `delete()`) call throw. -/
def deleteFile (st : StorageInit) (b : Bucket) (filePath : String)
    (existsFails deleteFails : Bool) : Except String Bucket :=
  match ensureInitialized st with
  | Except.error e => Except.error e
  | Except.ok _ =>
    if !st.bucketSet then Except.error "GCS bucket not initialized"
    else if existsFails then Except.ok b
    else if fileExistsIn b filePath then
      if deleteFails then Except.ok b
      else Except.ok ⟨b.files.filter (fun f => f.1 != filePath)⟩
    else Except.ok b

/-- storage.ts `copyFile` (lines 323-338): throws when the source object
does not exist, otherwise writes the source content at the destination
path (GCS `copy` overwrites an existing destination object). -/
def copyFile (st : StorageInit) (b : Bucket) (sourcePath destinationPath : String) :
    Except String Bucket :=
  match ensureInitialized st with
  | Except.error e => Except.error e
  | Except.ok _ =>
    if !st.bucketSet then Except.error "GCS bucket not initialized"
    else
      match b.files.find? (fun f => f.1 == sourcePath) with
      | none => Except.error "Source file not found"
      | some f =>
        Except.ok ⟨b.files.filter (fun g => g.1 != destinationPath) ++ [(destinationPath, f.2)]⟩

/-- storage.ts `moveFile` (lines 343-346): `copyFile` then `deleteFile`,
with the delete-side failure oracles passed through. -/
def moveFile (st : StorageInit) (b : Bucket) (sourcePath destinationPath : String)
    (existsFails deleteFails : Bool) : Except String Bucket :=
  match copyFile st b sourcePath destinationPath with
  | Except.error e => Except.error e
  | Except.ok b2 => deleteFile st b2 sourcePath existsFails deleteFails

/-! ## pdf2img: convertPdfToImage and attemptPdfConversion -/

/-- The `PdfConversionResult` interface (pdf2img lines 4-8).  The produced
image `File` is modelled by its name and MIME type; `error?: string`
becomes an `Option String`. -/
structure PdfConversionResult where
  imageUrl : String
  file : Option (String × String)
  error : Option String
deriving Repr, DecidableEq

/-- The browser `File` given to `convertPdfToImage`: the fields the code
reads (`name`, `type`, `size`). -/
structure JSFile where
  name : String
  type : String
  size : Nat
deriving Repr, DecidableEq

/-- Environment of one `attemptPdfConversion` call: the outcome of every
external (browser / pdfjs) operation the attempt performs, in the order
the code performs them.  Error values model the JS string
`e?.message || String(e)` already coalesced. -/
structure PdfEnv where
  /-- `window`/`document` are defined. -/
  inBrowser : Bool
  /-- result of `loadPdfJs()`; a failure propagates to the outer catch. -/
  loadLib : Except String Unit
  /-- result of `file.arrayBuffer()`: its `byteLength` on success. -/
  readBuffer : Except String Nat
  /-- first `lib.getDocument` call: `numPages` on success. -/
  parse1 : Except String Nat
  /-- `lib.getDocument` retried without worker: `numPages` on success. -/
  parse2 : Except String Nat
  /-- `pdf.getPage(1)` + `page.render(...)`; a failure propagates to the
  outer catch. -/
  render : Except String Unit
  /-- `canvas.getContext("2d")` returned non-null. -/
  ctx2d : Bool
  /-- `canvas.toBlob` produced a blob (not null). -/
  toBlobOk : Bool
  /-- the `toDataURL` fallback succeeded. -/
  dataUrlOk : Bool
  /-- value of `URL.createObjectURL(finalBlob)`. -/
  objectUrl : String

/-- The worker-error test of pdf2img line 121:
`/(worker|postmessage|detached|transfer)/i.test(msg)`. -/
def isWorkerErr (msg : String) : Bool :=
  let l := jsToLower msg
  strIncludes l "worker" || strIncludes l "postmessage" ||
    strIncludes l "detached" || strIncludes l "transfer"

/-- An error result of `attemptPdfConversion`: empty image URL, null file. -/
def pdfErr (msg : String) : PdfConversionResult := ⟨"", none, some msg⟩

/-- pdf2img line 184: `file.name.replace(/\.pdf$/i, "")`. -/
def stripPdfExt (s : String) : String :=
  if strEndsWith (jsToLower s) ".pdf" then String.mk (s.toList.take (s.toList.length - 4))
  else s

/-- The `getDocument` step of `attemptPdfConversion` (pdf2img lines
116-134): on a worker-related parse error the load is retried without the
worker; either parse failure is reported as `PDF parsing failed: <msg>`. -/
def pdfParseStep (env : PdfEnv) : Except String Nat :=
  match env.parse1 with
  | Except.ok n => Except.ok n
  | Except.error e =>
    if isWorkerErr e then
      match env.parse2 with
      | Except.ok n => Except.ok n
      | Except.error e2 => Except.error ("PDF parsing failed: " ++ e2)
    else Except.error ("PDF parsing failed: " ++ e)

/-- pdf2img `attemptPdfConversion` (lines 84-198), branch by branch.  Its
whole body sits in a try block whose catch returns
`Failed to convert PDF: <msg>`, so the function never throws. -/
def attemptPdfConversion (env : PdfEnv) (file : JSFile) : PdfConversionResult :=
  if !env.inBrowser then pdfErr "Not running in a browser context"
  else if file.size == 0 then pdfErr "Invalid or empty file"
  else if !(strIncludes file.type "pdf") && !(strEndsWith (jsToLower file.name) ".pdf") then
    pdfErr "File is not a PDF"
  else
    match env.loadLib with
    | Except.error e => pdfErr ("Failed to convert PDF: " ++ e)
    | Except.ok _ =>
      match env.readBuffer with
      | Except.error e => pdfErr ("Failed to read file: " ++ e)
      | Except.ok byteLength =>
        if byteLength == 0 then pdfErr "File is empty"
        else
          match pdfParseStep env with
          | Except.error e => pdfErr e
          | Except.ok numPages =>
            if numPages == 0 then pdfErr "PDF has no pages"
            else
              match env.render with
              | Except.error e => pdfErr ("Failed to convert PDF: " ++ e)
              | Except.ok _ =>
                if !env.ctx2d then pdfErr "Could not get 2D canvas context"
                else if !env.toBlobOk && !env.dataUrlOk then
                  pdfErr "Failed to create image blob"
                else
                  { imageUrl := env.objectUrl,
                    file := some (stripPdfExt file.name ++ ".png", "image/png"),
                    error := none }

/-- Outcome of awaiting `attemptPdfConversion(file)` inside the retry loop
of `convertPdfToImage`: a resolved `PdfConversionResult`, or a rejection
carrying `err?.message` (which may be absent). -/
inductive PdfAttemptOutcome where
  | result (r : PdfConversionResult)
  | thrown (msg : Option String)

/-- `lastError?.message || "Unknown error"` of pdf2img line 80: a null
`lastError`, an absent message, and an empty message all render as
"Unknown error". -/
def convLastErrMsg : Option (Option String) → String
  | none => "Unknown error"
  | some none => "Unknown error"
  | some (some m) => if m = "" then "Unknown error" else m

/-- The aggregated failure result of `convertPdfToImage` (lines 77-81). -/
def convFailResult (maxRetries : Nat) (lastError : Option (Option String)) :
    PdfConversionResult :=
  ⟨"", none, some ("Failed after " ++ toString maxRetries ++ " attempts: " ++
    convLastErrMsg lastError)⟩

/-- The retry loop of `convertPdfToImage` (pdf2img lines 57-81).
A resolved result with a truthy `error` is retried while attempts remain,
otherwise returned as is; a rejection records `lastError` and is retried;
after the loop the aggregated failure result is returned.  The delay
`500 * attempt` (line 64/72) is waited only when `attempt < maxRetries`. -/
def convertGo (att : Nat → PdfAttemptOutcome) (maxRetries attempt : Nat) :
    Nat → Option (Option String) → PdfConversionResult × RetryTrace
  | 0, lastError => (convFailResult maxRetries lastError, ⟨0, []⟩)
  | remaining + 1, lastError =>
    match att attempt with
    | PdfAttemptOutcome.result r =>
      if !(r.error.getD "" == "") && attempt < maxRetries then
        let rest := convertGo att maxRetries (attempt + 1) remaining lastError
        (rest.1, ⟨rest.2.attempts + 1, [500 * attempt] ++ rest.2.delays⟩)
      else (r, ⟨1, []⟩)
    | PdfAttemptOutcome.thrown m =>
      let rest := convertGo att maxRetries (attempt + 1) remaining (some m)
      (rest.1, ⟨rest.2.attempts + 1,
        (if attempt < maxRetries then [500 * attempt] else []) ++ rest.2.delays⟩)

/-- pdf2img `convertPdfToImage` (lines 56-82): the retry loop applied to
`attemptPdfConversion`, whose environment may differ per attempt
(`envs` maps the 1-indexed attempt number to its environment).  Since
`attemptPdfConversion` catches every error and resolves, the attempts
never reject. -/
def convertPdfToImage (envs : Nat → PdfEnv) (file : JSFile) (maxRetries : Nat) :
    PdfConversionResult × RetryTrace :=
  convertGo (fun i => PdfAttemptOutcome.result (attemptPdfConversion (envs i) file))
    maxRetries 1 maxRetries none

/-! ## TrialTracker.tsx -/

/-- The `trial` object of the `useApiStore` state, as read by the
`TrialTracker` component (TrialTracker.tsx line 23). -/
structure TrialState where
  used : Int
  remaining : Int
  max : Int
deriving Repr, DecidableEq

/-- Modelled from the spec: the api store `~/lib/api` that supplies the
`trial` object is not part of the repository sources; per the spec,
"trial-usage display computes remaining = max − used", so the store state
for a user with `used` consumed analyses out of `maxUses` is modelled with
`remaining` equal to that difference. -/
def apiTrialState (used maxUses : Int) : TrialState :=
  ⟨used, maxUses - used, maxUses⟩

/-- What the rendered `TrialTracker` shows: the `{used}/{max} used`
counter and the `remaining` count driving the status message, progress
color and upgrade link (TrialTracker.tsx lines 39-82). -/
structure TrialTrackerView where
  usedShown : Int
  maxShown : Int
  remainingShown : Int
deriving Repr, DecidableEq

/-- TrialTracker.tsx `TrialTracker` (lines 15-84): renders nothing when
unauthenticated, otherwise displays `used`, `max` and `remaining` straight
from the store. -/
def TrialTracker (isAuthenticated : Bool) (trial : TrialState) :
    Option TrialTrackerView :=
  if !isAuthenticated then none
  else some ⟨trial.used, trial.max, trial.remaining⟩

/-! ## OAuth callback handler -/

/-- JS `encodeURIComponent`: characters outside the unreserved set are
percent-encoded byte-by-byte over their UTF-8 encoding, with uppercase
hex digits. -/
def isUriUnreserved (c : Char) : Bool :=
  c.isAlphanum || c == '-' || c == '_' || c == '.' || c == '!' ||
    c == '~' || c == '*' || c == '\'' || c == '(' || c == ')'

/-- Uppercase hexadecimal digit for a value below 16. -/
def hexDigit (n : Nat) : Char :=
  if n < 10 then Char.ofNat (48 + n) else Char.ofNat (55 + n)

/-- Percent-encoding of one byte. -/
def percentEncodeByte (b : UInt8) : String :=
  String.mk ['%', hexDigit (b.toNat / 16), hexDigit (b.toNat % 16)]

/-- JS `encodeURIComponent`. -/
def encodeURIComponent (s : String) : String :=
  s.toList.foldl
    (fun acc c =>
      if isUriUnreserved c then acc.push c
      else acc ++ String.join (((String.singleton c).toUTF8.toList).map percentEncodeByte))
    ""

/-- The query parameters of the OAuth callback request
(`req.query` destructured at line 30 of the handler): each of `code`,
`state`, `error` is absent or a string. -/
structure OAuthQuery where
  code : Option String
  state : Option String
  error : Option String

/-- Result of `getGoogleUserInfo`: the fields the handler reads.  A falsy
email (absent or empty) triggers the `no_email` redirect. -/
structure GoogleUser where
  id : String
  name : String
  email : Option String

/-- Outcomes of the external calls the OAuth callback handler awaits;
an `Except.error` models a thrown error, whose message the catch block
turns into a redirect. -/
structure OAuthEnv where
  /-- `getGoogleUserInfo(code)`. -/
  getGoogleUserInfo : Except String GoogleUser
  /-- `createUserSession(...)`: the session token. -/
  createUserSession : Except String String
  /-- `setSessionCookie(res, sessionToken)`. -/
  setSessionCookie : Except String Unit
  /-- `verifyStateToken(state)`: `stateData?.redirectTo` when it returns,
  `none` when `stateData` is null or has no redirect. -/
  verifyStateToken : Except String (Option String)

/-- The HTTP responses the handler can produce. -/
inductive HttpResponse where
  | redirect (status : Nat) (location : String)
  | jsonError (status : Nat) (message : String)
  | empty (status : Nat)
deriving Repr, DecidableEq

/-- The OAuth callback `handler` (src/unnamed/part_003 lines 13-70):
OPTIONS is answered 200, non-GET 405, and on GET every error path —
provider-reported OAuth error, missing/falsy `code`, falsy user email, or
any thrown error — produces a 302 redirect to `/` with the encoded error
message in the query string. -/
def handler (method : String) (q : OAuthQuery) (env : OAuthEnv) : HttpResponse :=
  if method == "OPTIONS" then HttpResponse.empty 200
  else if method != "GET" then HttpResponse.jsonError 405 "Method not allowed"
  else
    if !(q.error.getD "" == "") then
      HttpResponse.redirect 302 ("/?error=" ++ encodeURIComponent (q.error.getD ""))
    else if q.code.getD "" == "" then
      HttpResponse.redirect 302 "/?error=missing_code"
    else
      match env.getGoogleUserInfo with
      | Except.error e => HttpResponse.redirect 302 ("/?error=" ++ encodeURIComponent e)
      | Except.ok googleUser =>
        if googleUser.email.getD "" == "" then
          HttpResponse.redirect 302 "/?error=no_email"
        else
          match env.createUserSession with
          | Except.error e => HttpResponse.redirect 302 ("/?error=" ++ encodeURIComponent e)
          | Except.ok _sessionToken =>
            match env.setSessionCookie with
            | Except.error e => HttpResponse.redirect 302 ("/?error=" ++ encodeURIComponent e)
            | Except.ok _ =>
              match env.verifyStateToken with
              | Except.error e =>
                HttpResponse.redirect 302 ("/?error=" ++ encodeURIComponent e)
              | Except.ok redirectTo =>
                HttpResponse.redirect 302 (redirectTo.getD "/upload")

/-! ## Database: seed script and migration runner

The database rows are modelled with the columns that take part in
constraints or in the seeded values; the serial `id` of a user is its
1-based position in the `users` list, timestamps and the opaque
`analysis_data` JSONB payload (which no constraint mentions) are omitted.
The `randomUUID()` values the seed script generates (user uuids and
session token suffixes) are parameters of `seedData`, fresh on every
run. -/

/-- A row of the `users` table (000_initial_schema.sql lines 5-16). -/
structure UserRow where
  uuid : String
  name : String
  email : String
  subscriptionTier : String
  trialUses : Int
  maxTrialUses : Int
deriving Repr, DecidableEq

/-- A row of the `resumes` table (000_initial_schema.sql lines 28-40). -/
structure ResumeRow where
  userId : Nat
  fileName : String
  filePath : String
  fileSize : Nat
  mimeType : String
  atsScore : Int
deriving Repr, DecidableEq

/-- A row of the `sessions` table (000_initial_schema.sql lines 19-25). -/
structure SessionRow where
  userId : Nat
  sessionToken : String
deriving Repr, DecidableEq

/-- A row of the `kv_store` table (000_initial_schema.sql lines 43-51),
with its `UNIQUE(key, user_id)` constraint. -/
structure KVRow where
  key : String
  value : String
  userId : Nat
deriving Repr, DecidableEq

/-- The database contents of the four tables the seed script writes. -/
structure DB where
  users : List UserRow
  resumes : List ResumeRow
  sessions : List SessionRow
  kv : List KVRow
deriving Repr, DecidableEq

/-- seed-data.mjs lines 56-61:
`INSERT INTO users ... ON CONFLICT (email) DO UPDATE SET name =
EXCLUDED.name RETURNING id`.  On an email conflict the existing row keeps
everything but its name and its id is returned; otherwise the row is
appended and its fresh serial id returned. -/
def insertUserOnConflictEmail (db : DB) (u : UserRow) : DB × Nat :=
  match db.users.findIdx? (fun w => w.email == u.email) with
  | some i => ({ db with users := db.users.set i { (db.users.getD i u) with name := u.name } },
      i + 1)
  | none => ({ db with users := db.users ++ [u] }, db.users.length + 1)

/-- seed-data.mjs lines 121-124: a plain `INSERT INTO resumes`, no
conflict clause. -/
def insertResume (db : DB) (r : ResumeRow) : DB :=
  { db with resumes := db.resumes ++ [r] }

/-- seed-data.mjs lines 135-138: a plain `INSERT INTO sessions`, no
conflict clause; the token is freshly generated so the unique constraint
on `session_token` is satisfied. -/
def insertSession (db : DB) (s : SessionRow) : DB :=
  { db with sessions := db.sessions ++ [s] }

/-- seed-data.mjs lines 145-156: `INSERT INTO kv_store ... ON CONFLICT
(key, user_id) DO UPDATE SET value = EXCLUDED.value`. -/
def insertKV (db : DB) (key value : String) (userId : Nat) : DB :=
  match db.kv.findIdx? (fun w => w.key == key && w.userId == userId) with
  | some i => { db with kv := db.kv.set i { (db.kv.getD i ⟨key, value, userId⟩) with value := value } }
  | none => { db with kv := db.kv ++ [⟨key, value, userId⟩] }

/-- seed-data.mjs `seedData` (lines 20-178): three upserted users, three
plain-inserted resumes attached to the first two returned user ids, one
plain-inserted session per created user with a fresh
`test_session_<uuid>` token, and two upserted kv entries for the first
user.  `uuid1..uuid3` and `tok1..tok3` stand for the `randomUUID()`
values of this run and `nowIso` for `new Date().toISOString()`. -/
def seedData (db : DB) (uuid1 uuid2 uuid3 tok1 tok2 tok3 nowIso : String) : DB :=
  let r1 := insertUserOnConflictEmail db
    ⟨uuid1, "John Developer", "john@example.com", "free", 1, 3⟩
  let r2 := insertUserOnConflictEmail r1.1
    ⟨uuid2, "Jane Engineer", "jane@example.com", "pro", 3, 3⟩
  let r3 := insertUserOnConflictEmail r2.1
    ⟨uuid3, "Test User", "test@example.com", "free", 0, 3⟩
  let db4 := insertResume r3.1
    ⟨r1.2, "john_developer_resume.pdf", "/uploads/john_developer_resume.pdf",
      125000, "application/pdf", 78⟩
  let db5 := insertResume db4
    ⟨r1.2, "john_backend_resume.pdf", "/uploads/john_backend_resume.pdf",
      98000, "application/pdf", 65⟩
  let db6 := insertResume db5
    ⟨r2.2, "jane_engineer_resume.pdf", "/uploads/jane_engineer_resume.pdf",
      156000, "application/pdf", 92⟩
  let db7 := insertSession db6 ⟨r1.2, "test_session_" ++ tok1⟩
  let db8 := insertSession db7 ⟨r2.2, "test_session_" ++ tok2⟩
  let db9 := insertSession db8 ⟨r3.2, "test_session_" ++ tok3⟩
  let db10 := insertKV db9 "last_analysis_date" nowIso r1.2
  insertKV db10 "preferences"
    "\x7b\"theme\":\"dark\",\"notifications\":true\x7d" r1.2

/-- The database schema objects the migration files create: table,
column and index names. -/
structure Schema where
  tables : List String
  columns : List (String × String)
  indexes : List String
deriving Repr, DecidableEq

/-- A DDL statement of the migration files.  All three forms are
guarded: `CREATE TABLE IF NOT EXISTS`, `ADD COLUMN IF NOT EXISTS`,
`CREATE INDEX IF NOT EXISTS` — and for migration files that lack the
guard, run-migrations.mjs lines 66-76 skips statements failing with an
"already exists" error, which has the same effect. -/
inductive DdlOp where
  | createTable (t : String)
  | addColumn (t c : String)
  | createIndex (i : String)
deriving Repr, DecidableEq

/-- Apply one guarded DDL statement to a schema. -/
def applyDdl (s : Schema) : DdlOp → Schema
  | DdlOp.createTable t =>
    if t ∈ s.tables then s else { s with tables := s.tables ++ [t] }
  | DdlOp.addColumn t c =>
    if (t, c) ∈ s.columns then s else { s with columns := s.columns ++ [(t, c)] }
  | DdlOp.createIndex i =>
    if i ∈ s.indexes then s else { s with indexes := s.indexes ++ [i] }

/-- The schema already contains the object a guarded DDL statement would
create (proof infrastructure for idempotence). -/
def doneDdl (s : Schema) : DdlOp → Prop
  | DdlOp.createTable t => t ∈ s.tables
  | DdlOp.addColumn t c => (t, c) ∈ s.columns
  | DdlOp.createIndex i => i ∈ s.indexes

/-- The DDL statements of `migrations/000_initial_schema.sql`: five
tables and thirteen indexes. -/
def migration000 : List DdlOp :=
  [DdlOp.createTable "users", DdlOp.createTable "sessions",
   DdlOp.createTable "resumes", DdlOp.createTable "kv_store",
   DdlOp.createTable "payments",
   DdlOp.createIndex "idx_users_uuid", DdlOp.createIndex "idx_users_email",
   DdlOp.createIndex "idx_users_trial_uses", DdlOp.createIndex "idx_sessions_user_id",
   DdlOp.createIndex "idx_sessions_token", DdlOp.createIndex "idx_sessions_expires",
   DdlOp.createIndex "idx_resumes_user_id", DdlOp.createIndex "idx_resumes_created",
   DdlOp.createIndex "idx_kv_key", DdlOp.createIndex "idx_kv_user",
   DdlOp.createIndex "idx_payments_user", DdlOp.createIndex "idx_payments_order"]

/-- Modelled from the spec: `migrations/001_add_uuid_column.sql` is named
by run-migrations.mjs but its file is not in the sources; per its name
and the schema it produces (`users.uuid`), it adds the uuid column. -/
def migration001 : List DdlOp := [DdlOp.addColumn "users" "uuid"]

/-- Modelled from the spec: `migrations/002_add_gcs_url_to_resumes.sql`
is named by run-migrations.mjs but its file is not in the sources; per
its name and the runner's verification query (`resumes.gcs_url`), it adds
the gcs_url column. -/
def migration002 : List DdlOp := [DdlOp.addColumn "resumes" "gcs_url"]

/-- `migrations/003_add_trial_tracking.sql` (src/unnamed/part_001): two
`ADD COLUMN IF NOT EXISTS` and one `CREATE INDEX IF NOT EXISTS`. -/
def migration003 : List DdlOp :=
  [DdlOp.addColumn "users" "trial_uses", DdlOp.addColumn "users" "max_trial_uses",
   DdlOp.createIndex "idx_users_trial_uses"]

/-- run-migrations.mjs `runMigrations` (lines 32-89): the four migration
files in order.  The runner only executes DDL; it inserts no rows, so it
acts on the schema alone. -/
def runMigrations (s : Schema) : Schema :=
  (migration000 ++ migration001 ++ migration002 ++ migration003).foldl applyDdl s

/-! ## Lemmas about the retry loops -/

theorem uploadGo_attempts_le (op : Nat → Except String FileMetadata) (n : Nat) :
    ∀ (remaining a : Nat) (le : Option String),
      (uploadGo op n a remaining le).2.attempts ≤ remaining := by
  intro remaining
  induction remaining with
  | zero => intro a le; simp [uploadGo]
  | succ r ih =>
    intro a le
    simp only [uploadGo]
    cases op a with
    | ok m => simp
    | error e => simpa using Nat.succ_le_succ (ih (a + 1) (some e))

theorem readGo_attempts_le (op : Nat → Except String (List Nat)) (n : Nat) :
    ∀ (remaining a : Nat) (le : Option String),
      (readGo op n a remaining le).2.attempts ≤ remaining := by
  intro remaining
  induction remaining with
  | zero => intro a le; simp [readGo]
  | succ r ih =>
    intro a le
    simp only [readGo]
    cases op a with
    | ok b => simp
    | error e =>
      by_cases hnf : strIncludes e "not found"
      · simp [hnf]
      · simpa [hnf] using Nat.succ_le_succ (ih (a + 1) (some e))

theorem convertGo_attempts_le (att : Nat → PdfAttemptOutcome) (n : Nat) :
    ∀ (remaining a : Nat) (le : Option (Option String)),
      (convertGo att n a remaining le).2.attempts ≤ remaining := by
  intro remaining
  induction remaining with
  | zero => intro a le; simp [convertGo]
  | succ r ih =>
    intro a le
    simp only [convertGo]
    cases att a with
    | result rr =>
      by_cases hretry : !(rr.error.getD "" == "") && a < n
      · simpa [hretry] using Nat.succ_le_succ (ih (a + 1) le)
      · simp [hretry]
    | thrown m => simpa using Nat.succ_le_succ (ih (a + 1) (some m))

theorem uploadGo_attempts_pos (op : Nat → Except String FileMetadata) (n : Nat)
    (remaining a : Nat) (le : Option String) (h : 1 ≤ remaining) :
    1 ≤ (uploadGo op n a remaining le).2.attempts := by
  match remaining, h with
  | r + 1, _ =>
    simp only [uploadGo]
    cases op a with
    | ok m => simp
    | error e => simp

theorem readGo_attempts_pos (op : Nat → Except String (List Nat)) (n : Nat)
    (remaining a : Nat) (le : Option String) (h : 1 ≤ remaining) :
    1 ≤ (readGo op n a remaining le).2.attempts := by
  match remaining, h with
  | r + 1, _ =>
    simp only [readGo]
    cases op a with
    | ok b => simp
    | error e =>
      by_cases hnf : strIncludes e "not found" <;> simp [hnf]

theorem convertGo_attempts_pos (att : Nat → PdfAttemptOutcome) (n : Nat)
    (remaining a : Nat) (le : Option (Option String)) (h : 1 ≤ remaining) :
    1 ≤ (convertGo att n a remaining le).2.attempts := by
  match remaining, h with
  | r + 1, _ =>
    simp only [convertGo]
    cases att a with
    | result rr =>
      by_cases hretry : !(rr.error.getD "" == "") && a < n <;> simp [hretry]
    | thrown m => simp

theorem uploadGo_delays (op : Nat → Except String FileMetadata) (n : Nat) :
    ∀ (remaining a : Nat) (le : Option String), 1 ≤ a → a + remaining = n + 1 →
      (uploadGo op n a remaining le).2.delays =
        (List.range ((uploadGo op n a remaining le).2.attempts - 1)).map
          (fun i => 500 * 2 ^ (a - 1 + i)) := by
  intro remaining
  induction remaining with
  | zero => intro a le h1 h2; simp [uploadGo]
  | succ r ih =>
    intro a le h1 h2
    simp only [uploadGo]
    cases op a with
    | ok m => simp
    | error e =>
      by_cases hlt : a < n
      · have hr : 1 ≤ r := by omega
        have hpos := uploadGo_attempts_pos op n r (a + 1) (some e) hr
        have hrec := ih (a + 1) (some e) (by omega) (by omega)
        obtain ⟨m, hm⟩ : ∃ m, (uploadGo op n (a + 1) r (some e)).2.attempts = m + 1 :=
          ⟨(uploadGo op n (a + 1) r (some e)).2.attempts - 1, by omega⟩
        simp only [hlt, if_pos, hrec, hm]
        simp only [Nat.add_sub_cancel, List.range_succ_eq_map, List.map_cons, List.map_map,
          List.singleton_append]
        congr 1
        apply List.map_congr_left
        intro i _
        have hx : a + i = a - 1 + (i + 1) := by omega
        simp [Function.comp, hx]
      · have han : a = n := by omega
        have hr0 : r = 0 := by omega
        subst hr0
        simp [hlt, uploadGo]

theorem readGo_delays (op : Nat → Except String (List Nat)) (n : Nat) :
    ∀ (remaining a : Nat) (le : Option String), 1 ≤ a → a + remaining = n + 1 →
      (readGo op n a remaining le).2.delays =
        (List.range ((readGo op n a remaining le).2.attempts - 1)).map
          (fun i => 300 * (a + i)) := by
  intro remaining
  induction remaining with
  | zero => intro a le h1 h2; simp [readGo]
  | succ r ih =>
    intro a le h1 h2
    simp only [readGo]
    cases op a with
    | ok b => simp
    | error e =>
      by_cases hnf : strIncludes e "not found"
      · simp [hnf]
      · by_cases hlt : a < n
        · have hr : 1 ≤ r := by omega
          have hpos := readGo_attempts_pos op n r (a + 1) (some e) hr
          have hrec := ih (a + 1) (some e) (by omega) (by omega)
          obtain ⟨m, hm⟩ : ∃ m, (readGo op n (a + 1) r (some e)).2.attempts = m + 1 :=
            ⟨(readGo op n (a + 1) r (some e)).2.attempts - 1, by omega⟩
          simp only [hnf, hlt, if_pos, if_neg, Bool.false_eq_true, not_false_iff, hrec, hm]
          simp only [Nat.add_sub_cancel, List.range_succ_eq_map, List.map_cons, List.map_map,
            List.singleton_append]
          congr 1
          apply List.map_congr_left
          intro i _
          have hx : a + 1 + i = a + (i + 1) := by omega
          simp [Function.comp, hx]
        · have han : a = n := by omega
          have hr0 : r = 0 := by omega
          subst hr0
          simp [hnf, hlt, readGo]

theorem convertGo_delays (att : Nat → PdfAttemptOutcome) (n : Nat) :
    ∀ (remaining a : Nat) (le : Option (Option String)), 1 ≤ a → a + remaining = n + 1 →
      (convertGo att n a remaining le).2.delays =
        (List.range ((convertGo att n a remaining le).2.attempts - 1)).map
          (fun i => 500 * (a + i)) := by
  intro remaining
  induction remaining with
  | zero => intro a le h1 h2; simp [convertGo]
  | succ r ih =>
    intro a le h1 h2
    simp only [convertGo]
    cases att a with
    | result rr =>
      by_cases hretry : !(rr.error.getD "" == "") && a < n
      · have hlt : a < n := by
          have := hretry
          simp only [Bool.and_eq_true, decide_eq_true_eq] at this
          exact this.2
        have hr : 1 ≤ r := by omega
        have hpos := convertGo_attempts_pos att n r (a + 1) le hr
        have hrec := ih (a + 1) le (by omega) (by omega)
        obtain ⟨m, hm⟩ : ∃ m, (convertGo att n (a + 1) r le).2.attempts = m + 1 :=
          ⟨(convertGo att n (a + 1) r le).2.attempts - 1, by omega⟩
        simp only [hretry, if_pos, hrec, hm]
        simp only [Nat.add_sub_cancel, List.range_succ_eq_map, List.map_cons, List.map_map,
          List.singleton_append]
        congr 1
        apply List.map_congr_left
        intro i _
        have hx : a + 1 + i = a + (i + 1) := by omega
        simp [Function.comp, hx]
      · simp [hretry]
    | thrown msg =>
      by_cases hlt : a < n
      · have hr : 1 ≤ r := by omega
        have hpos := convertGo_attempts_pos att n r (a + 1) (some msg) hr
        have hrec := ih (a + 1) (some msg) (by omega) (by omega)
        obtain ⟨m, hm⟩ : ∃ m, (convertGo att n (a + 1) r (some msg)).2.attempts = m + 1 :=
          ⟨(convertGo att n (a + 1) r (some msg)).2.attempts - 1, by omega⟩
        simp only [hlt, if_pos, hrec, hm]
        simp only [Nat.add_sub_cancel, List.range_succ_eq_map, List.map_cons, List.map_map,
          List.singleton_append]
        congr 1
        apply List.map_congr_left
        intro i _
        have hx : a + 1 + i = a + (i + 1) := by omega
        simp [Function.comp, hx]
      · have han : a = n := by omega
        have hr0 : r = 0 := by omega
        subst hr0
        simp [hlt, convertGo]

theorem uploadFile_delays (st : StorageInit) (fileData : List Nat) (fileName : String)
    (op : Nat → Except String FileMetadata) (n : Nat) :
    (uploadFile st fileData fileName op n).2.delays =
      (List.range ((uploadFile st fileData fileName op n).2.attempts - 1)).map
        (fun i => 500 * 2 ^ i) := by
  unfold uploadFile
  split
  · simp
  · split
    · simp
    · split
      · simp
      · split
        · simp
        · simpa using uploadGo_delays op n n 1 none (by omega) (by omega)

theorem readFile_delays (st : StorageInit) (filePath : String) (att : Nat → ReadAttempt)
    (n : Nat) :
    (readFile st filePath att n).2.delays =
      (List.range ((readFile st filePath att n).2.attempts - 1)).map
        (fun i => 300 * (i + 1)) := by
  unfold readFile
  split
  · simp
  · split
    · simp
    · split
      · simp
      · simpa [Nat.add_comm] using
          readGo_delays (fun i => readAttemptResult filePath (att i)) n n 1 none
            (by omega) (by omega)

theorem convertPdfToImage_delays (envs : Nat → PdfEnv) (file : JSFile) (n : Nat) :
    (convertPdfToImage envs file n).2.delays =
      (List.range ((convertPdfToImage envs file n).2.attempts - 1)).map
        (fun i => 500 * (i + 1)) := by
  unfold convertPdfToImage
  simpa [Nat.add_comm] using
    convertGo_delays (fun i => PdfAttemptOutcome.result (attemptPdfConversion (envs i) file))
      n n 1 none (by omega) (by omega)

theorem strictMono_uploadBackoff : StrictMono (fun i : Nat => 500 * 2 ^ i) := by
  intro a b h
  have h2 : (2 : Nat) ^ a < 2 ^ b := Nat.pow_lt_pow_right (by norm_num) h
  show 500 * 2 ^ a < 500 * 2 ^ b
  omega

theorem strictMono_readBackoff : StrictMono (fun i : Nat => 300 * (i + 1)) := by
  intro a b h
  show 300 * (a + 1) < 300 * (b + 1)
  omega

theorem strictMono_convertBackoff : StrictMono (fun i : Nat => 500 * (i + 1)) := by
  intro a b h
  show 500 * (a + 1) < 500 * (b + 1)
  omega

theorem pairwise_lt_map_range {f : Nat → Nat} (hf : StrictMono f) (k : Nat) :
    ((List.range k).map f).Pairwise (· < ·) :=
  (List.pairwise_lt_range k).map f (fun _ _ h => hf h)

theorem delays_empty_or_lt {d : List Nat} {k : Nat} {f : Nat → Nat}
    (hshape : d = (List.range (k - 1)).map f) : d = [] ∨ d.length < k := by
  rcases Nat.eq_zero_or_pos k with h0 | hpos
  · left
    simp [hshape, h0]
  · right
    simp only [hshape, List.length_map, List.length_range]
    omega

/-! ## Claim theorems -/

/-- C1: every call of `uploadFile`, `readFile` or `convertPdfToImage`
with a maximum-retries parameter attempts the underlying operation (GCS
save, GCS download, PDF conversion attempt) at most `maxRetries` times
before returning or throwing. -/
theorem claim_C1_retry_count_bounded (st : StorageInit) (fileData : List Nat)
    (fileName filePath : String) (op : Nat → Except String FileMetadata)
    (att : Nat → ReadAttempt) (envs : Nat → PdfEnv) (file : JSFile) (maxRetries : Nat) :
    (uploadFile st fileData fileName op maxRetries).2.attempts ≤ maxRetries ∧
    (readFile st filePath att maxRetries).2.attempts ≤ maxRetries ∧
    (convertPdfToImage envs file maxRetries).2.attempts ≤ maxRetries := by
  refine ⟨?_, ?_, ?_⟩
  · unfold uploadFile
    split
    · simp
    · split
      · simp
      · split
        · simp
        · split
          · simp
          · exact uploadGo_attempts_le op maxRetries maxRetries 1 none
  · unfold readFile
    split
    · simp
    · split
      · simp
      · split
        · simp
        · exact readGo_attempts_le (fun i => readAttemptResult filePath (att i))
            maxRetries maxRetries 1 none
  · unfold convertPdfToImage
    exact convertGo_attempts_le
      (fun i => PdfAttemptOutcome.result (attemptPdfConversion (envs i) file))
      maxRetries maxRetries 1 none

/-- C4: in each retry loop the backoff delays waited between consecutive
attempts follow the source formulas — `500 * 2^(attempt-1)` ms for
`uploadFile` (exponential), `300 * attempt` ms for `readFile` (linear),
`500 * attempt` ms for `convertPdfToImage` (linear) — each sequence is
strictly increasing in the attempt index, and no delay is performed after
the final attempt (there is always at least one fewer delay than
attempts). -/
theorem claim_C4_backoff_delays (st : StorageInit) (fileData : List Nat)
    (fileName filePath : String) (op : Nat → Except String FileMetadata)
    (att : Nat → ReadAttempt) (envs : Nat → PdfEnv) (file : JSFile) (maxRetries : Nat) :
    ((uploadFile st fileData fileName op maxRetries).2.delays =
       (List.range ((uploadFile st fileData fileName op maxRetries).2.attempts - 1)).map
         (fun i => 500 * 2 ^ i) ∧
     (uploadFile st fileData fileName op maxRetries).2.delays.Pairwise (· < ·) ∧
     ((uploadFile st fileData fileName op maxRetries).2.delays = [] ∨
      (uploadFile st fileData fileName op maxRetries).2.delays.length <
        (uploadFile st fileData fileName op maxRetries).2.attempts)) ∧
    ((readFile st filePath att maxRetries).2.delays =
       (List.range ((readFile st filePath att maxRetries).2.attempts - 1)).map
         (fun i => 300 * (i + 1)) ∧
     (readFile st filePath att maxRetries).2.delays.Pairwise (· < ·) ∧
     ((readFile st filePath att maxRetries).2.delays = [] ∨
      (readFile st filePath att maxRetries).2.delays.length <
        (readFile st filePath att maxRetries).2.attempts)) ∧
    ((convertPdfToImage envs file maxRetries).2.delays =
       (List.range ((convertPdfToImage envs file maxRetries).2.attempts - 1)).map
         (fun i => 500 * (i + 1)) ∧
     (convertPdfToImage envs file maxRetries).2.delays.Pairwise (· < ·) ∧
     ((convertPdfToImage envs file maxRetries).2.delays = [] ∨
      (convertPdfToImage envs file maxRetries).2.delays.length <
        (convertPdfToImage envs file maxRetries).2.attempts)) := by
  refine ⟨⟨uploadFile_delays st fileData fileName op maxRetries, ?_, ?_⟩,
    ⟨readFile_delays st filePath att maxRetries, ?_, ?_⟩,
    ⟨convertPdfToImage_delays envs file maxRetries, ?_, ?_⟩⟩
  · rw [uploadFile_delays st fileData fileName op maxRetries]
    exact pairwise_lt_map_range strictMono_uploadBackoff _
  · exact delays_empty_or_lt (uploadFile_delays st fileData fileName op maxRetries)
  · rw [readFile_delays st filePath att maxRetries]
    exact pairwise_lt_map_range strictMono_readBackoff _
  · exact delays_empty_or_lt (readFile_delays st filePath att maxRetries)
  · rw [convertPdfToImage_delays envs file maxRetries]
    exact pairwise_lt_map_range strictMono_convertBackoff _
  · exact delays_empty_or_lt (convertPdfToImage_delays envs file maxRetries)

theorem readGo_shortcircuit (op : Nat → Except String (List Nat)) (n : Nat) :
    ∀ (remaining a k : Nat) (le : Option String) (e : String),
      a + remaining = n + 1 → a ≤ k → k ≤ n →
      (∀ j, a ≤ j → j < k →
        ∃ m, op j = Except.error m ∧ strIncludes m "not found" = false) →
      op k = Except.error e → strIncludes e "not found" = true →
      (readGo op n a remaining le).1 = Except.error e ∧
      (readGo op n a remaining le).2.attempts = k - a + 1 := by
  intro remaining
  induction remaining with
  | zero => intro a k le e h2 hak hkn hall hk he; omega
  | succ r ih =>
    intro a k le e h2 hak hkn hall hk he
    by_cases heq : a = k
    · subst heq
      simp [readGo, hk, he]
    · obtain ⟨m, hm, hnf⟩ := hall a (le_refl a) (by omega)
      have hrest := ih (a + 1) k (some m) e (by omega) (by omega) hkn
        (fun j hj1 hj2 => hall j (by omega) hj2) hk he
      simp only [readGo, hm, hnf, Bool.false_eq_true, if_false]
      exact ⟨hrest.1, by rw [hrest.2]; omega⟩

/-- C2: if a `readFile` attempt fails with an error whose message
contains "not found" (in particular when the file does not exist),
`readFile` rethrows that error at once, performing no further attempts,
however many retries remain. -/
theorem claim_C2_not_found_short_circuits (st : StorageInit) (filePath : String)
    (att : Nat → ReadAttempt) (maxRetries k : Nat) (e : String)
    (hinit : st.initError = none) (hbucket : st.bucketSet = true) (hpath : filePath ≠ "")
    (hk1 : 1 ≤ k) (hkn : k ≤ maxRetries)
    (hprev : ∀ j, 1 ≤ j → j < k →
      ∃ m, readAttemptResult filePath (att j) = Except.error m ∧
        strIncludes m "not found" = false)
    (hk : readAttemptResult filePath (att k) = Except.error e)
    (hnf : strIncludes e "not found" = true) :
    (readFile st filePath att maxRetries).1 = Except.error e ∧
    (readFile st filePath att maxRetries).2.attempts = k := by
  have h := readGo_shortcircuit (fun i => readAttemptResult filePath (att i)) maxRetries
    maxRetries 1 k none e (by omega) hk1 hkn hprev hk hnf
  unfold readFile
  simp only [ensureInitialized, hinit, hbucket, Bool.not_true, Bool.false_eq_true, if_false]
  rw [if_neg hpath]
  exact ⟨h.1, by rw [h.2]; omega⟩

/-- Witness for C2: a transient failure on attempt 1 and a missing file
on attempt 2 of 3 make `readFile` throw the "not found" error after
exactly two attempts. -/
theorem claim_C2_witness :
    (readFile ⟨none, true⟩ "resumes/a.pdf"
      (fun j => if j = 1 then ReadAttempt.failed "socket hang up" else ReadAttempt.notExists)
      3).1 = Except.error "File not found: resumes/a.pdf" ∧
    (readFile ⟨none, true⟩ "resumes/a.pdf"
      (fun j => if j = 1 then ReadAttempt.failed "socket hang up" else ReadAttempt.notExists)
      3).2.attempts = 2 :=
  claim_C2_not_found_short_circuits ⟨none, true⟩ "resumes/a.pdf"
    (fun j => if j = 1 then ReadAttempt.failed "socket hang up" else ReadAttempt.notExists)
    3 2 "File not found: resumes/a.pdf" rfl rfl (by decide) (by omega) (by omega)
    (fun j hj1 hj2 => by
      have hj : j = 1 := by omega
      subst hj
      exact ⟨"socket hang up", rfl, by decide⟩)
    rfl (by decide)

theorem uploadGo_allfail (op : Nat → Except String FileMetadata) (n : Nat)
    (ms : Nat → String) :
    ∀ (remaining a : Nat) (le : Option String),
      a + remaining = n + 1 → 1 ≤ a → a ≤ n →
      (∀ j, a ≤ j → j ≤ n → op j = Except.error (ms j)) →
      (uploadGo op n a remaining le).1 =
        Except.error (uploadFailMsg n (some (ms n))) := by
  intro remaining
  induction remaining with
  | zero => intro a le h2 h1 han hall; omega
  | succ r ih =>
    intro a le h2 h1 han hall
    have ha := hall a (le_refl a) han
    by_cases heq : a = n
    · have hr0 : r = 0 := by omega
      subst hr0
      subst heq
      simp [uploadGo, ha]
    · have hrest := ih (a + 1) (some (ms a)) (by omega) (by omega) (by omega)
        (fun j hj1 hj2 => hall j (by omega) hj2)
      simp only [uploadGo, ha]
      exact hrest

theorem convertGo_allthrown (att : Nat → PdfAttemptOutcome) (n : Nat)
    (ms : Nat → Option String) :
    ∀ (remaining a : Nat) (le : Option (Option String)),
      a + remaining = n + 1 → 1 ≤ a → a ≤ n →
      (∀ j, a ≤ j → j ≤ n → att j = PdfAttemptOutcome.thrown (ms j)) →
      (convertGo att n a remaining le).1 = convFailResult n (some (ms n)) := by
  intro remaining
  induction remaining with
  | zero => intro a le h2 h1 han hall; omega
  | succ r ih =>
    intro a le h2 h1 han hall
    have ha := hall a (le_refl a) han
    by_cases heq : a = n
    · have hr0 : r = 0 := by omega
      subst hr0
      subst heq
      simp [convertGo, ha]
    · have hrest := ih (a + 1) (some (ms a)) (by omega) (by omega) (by omega)
        (fun j hj1 hj2 => hall j (by omega) hj2)
      simp only [convertGo, ha]
      exact hrest

theorem convertGo_result_pass (att : Nat → PdfAttemptOutcome) (n : Nat)
    (rs : Nat → PdfConversionResult) :
    ∀ (remaining a : Nat) (le : Option (Option String)),
      a + remaining = n + 1 → 1 ≤ a → a ≤ n →
      (∀ j, a ≤ j → j ≤ n → att j = PdfAttemptOutcome.result (rs j) ∧
        ((rs j).error.getD "" == "") = false) →
      (convertGo att n a remaining le).1 = rs n := by
  intro remaining
  induction remaining with
  | zero => intro a le h2 h1 han hall; omega
  | succ r ih =>
    intro a le h2 h1 han hall
    obtain ⟨ha, herr⟩ := hall a (le_refl a) han
    by_cases heq : a = n
    · subst heq
      have hlt : ¬ a < a := by omega
      simp [convertGo, ha, herr, hlt]
    · have hlt : a < n := by omega
      have hrest := ih (a + 1) le (by omega) (by omega) (by omega)
        (fun j hj1 hj2 => hall j (by omega) hj2)
      have hcond : (!((rs a).error.getD "" == "") && decide (a < n)) = true := by
        simp [herr, hlt]
      simp [convertGo, ha, hcond, hrest]

/-- Counterexample for C3: a non-PDF file makes every attempt of
`convertPdfToImage` fail with the retryable error result
"File is not a PDF" (the first two attempts are retried, so three
attempts are performed), yet the value returned after the final attempt
is that attempt's own result, whose error field contains neither the
attempt count nor any aggregation prefix. -/
theorem claim_C3_counterexample :
    (convertPdfToImage
      (fun _ => ⟨true, Except.ok (), Except.ok 10, Except.ok 1, Except.ok 1,
        Except.ok (), true, true, true, "blob:preview"⟩)
      ⟨"resume.txt", "text/plain", 5⟩ 3).2.attempts = 3 ∧
    (convertPdfToImage
      (fun _ => ⟨true, Except.ok (), Except.ok 10, Except.ok 1, Except.ok 1,
        Except.ok (), true, true, true, "blob:preview"⟩)
      ⟨"resume.txt", "text/plain", 5⟩ 3).1.error = some "File is not a PDF" ∧
    strIncludes "File is not a PDF" "3" = false ∧
    strIncludes "File is not a PDF" "Failed after" = false := by
  refine ⟨rfl, rfl, by decide, by decide⟩

/-- C3 (amended): after exhausting all attempts, `uploadFile` throws the
aggregated error carrying the attempt count and the last underlying
failure message; the retry loop of `convertPdfToImage` produces its
aggregated error result (attempt count plus last failure message) only
when the attempts fail by throwing, and when the attempts fail by
returning error results — the only failure mode of
`attemptPdfConversion` — the final attempt's result is returned
unchanged, without any aggregation. -/
theorem claim_C3_amended_aggregated_errors :
    (∀ (st : StorageInit) (fileData : List Nat) (fileName : String)
       (op : Nat → Except String FileMetadata) (n : Nat) (ms : Nat → String),
       st.initError = none → st.bucketSet = true → fileData.length ≠ 0 → fileName ≠ "" →
       1 ≤ n → (∀ j, 1 ≤ j → j ≤ n → op j = Except.error (ms j)) →
       (uploadFile st fileData fileName op n).1 =
         Except.error ("Failed to upload file after " ++ toString n ++ " attempts: " ++
           ms n)) ∧
    (∀ (att : Nat → PdfAttemptOutcome) (n : Nat) (ms : Nat → String),
       1 ≤ n → (∀ j, 1 ≤ j → j ≤ n → att j = PdfAttemptOutcome.thrown (some (ms j))) →
       (∀ j, ms j ≠ "") →
       (convertGo att n 1 n none).1 =
         ⟨"", none, some ("Failed after " ++ toString n ++ " attempts: " ++ ms n)⟩) ∧
    (∀ (envs : Nat → PdfEnv) (file : JSFile) (n : Nat),
       1 ≤ n →
       (∀ j, 1 ≤ j → j ≤ n →
         ((attemptPdfConversion (envs j) file).error.getD "" == "") = false) →
       (convertPdfToImage envs file n).1 = attemptPdfConversion (envs n) file) := by
  refine ⟨?_, ?_, ?_⟩
  · intro st fileData fileName op n ms hinit hbucket hdata hname hn hall
    have h := uploadGo_allfail op n ms n 1 none (by omega) (by omega) hn hall
    unfold uploadFile
    simp only [ensureInitialized, hinit, hbucket, Bool.not_true, Bool.false_eq_true, if_false]
    rw [if_neg hdata, if_neg hname, h]
    simp [uploadFailMsg]
  · intro att n ms hn hall hne
    have h := convertGo_allthrown att n (fun j => some (ms j)) n 1 none (by omega)
      (by omega) hn hall
    rw [h]
    simp [convFailResult, convLastErrMsg, hne n]
  · intro envs file n hn hall
    exact convertGo_result_pass _ n (fun j => attemptPdfConversion (envs j) file) n 1 none
      (by omega) (by omega) hn (fun j hj1 hj2 => ⟨rfl, hall j hj1 hj2⟩)

/-- Witness for the amended C3: concrete all-failing runs showing the
aggregated messages of `uploadFile` and of the throw path of the
conversion loop, and the unaggregated passthrough of the returned-error
path of `convertPdfToImage`. -/
theorem claim_C3_amended_witness :
    (uploadFile ⟨none, true⟩ [1] "resume.pdf"
      (fun _ => Except.error "network reset") 3).1 =
      Except.error "Failed to upload file after 3 attempts: network reset" ∧
    (convertGo (fun _ => PdfAttemptOutcome.thrown (some "worker crashed")) 3 1 3 none).1 =
      ⟨"", none, some "Failed after 3 attempts: worker crashed"⟩ ∧
    (convertPdfToImage
      (fun _ => ⟨true, Except.ok (), Except.ok 10, Except.ok 1, Except.ok 1,
        Except.ok (), true, true, true, "blob:preview"⟩)
      ⟨"resume.txt", "text/plain", 5⟩ 3).1 =
      attemptPdfConversion
        ⟨true, Except.ok (), Except.ok 10, Except.ok 1, Except.ok 1,
          Except.ok (), true, true, true, "blob:preview"⟩
        ⟨"resume.txt", "text/plain", 5⟩ := by
  refine ⟨?_, ?_, ?_⟩
  · rw [claim_C3_amended_aggregated_errors.1 ⟨none, true⟩ [1] "resume.pdf"
      (fun _ => Except.error "network reset") 3 (fun _ => "network reset") rfl rfl
      (by decide) (by decide) (by omega) (fun j hj1 hj2 => rfl)]
    rfl
  · rw [claim_C3_amended_aggregated_errors.2.1
      (fun _ => PdfAttemptOutcome.thrown (some "worker crashed")) 3
      (fun _ => "worker crashed") (by omega) (fun j hj1 hj2 => rfl)
      (fun j => by show "worker crashed" ≠ ""; decide)]
    rfl
  · exact claim_C3_amended_aggregated_errors.2.2
      (fun _ => ⟨true, Except.ok (), Except.ok 10, Except.ok 1, Except.ok 1,
        Except.ok (), true, true, true, "blob:preview"⟩)
      ⟨"resume.txt", "text/plain", 5⟩ 3 (by omega)
      (fun j hj1 hj2 => by
        show ((attemptPdfConversion
          ⟨true, Except.ok (), Except.ok 10, Except.ok 1, Except.ok 1,
            Except.ok (), true, true, true, "blob:preview"⟩
          ⟨"resume.txt", "text/plain", 5⟩).error.getD "" == "") = false
        decide)

theorem string_append_ne_empty (p e : String) (hp : p ≠ "") : p ++ e ≠ "" := by
  intro h
  apply hp
  have hd := congrArg String.data h
  simp only [String.data_append] at hd
  have h1 : p.data = [] := (List.append_eq_nil.mp (by simpa using hd)).1
  cases p
  exact congrArg String.mk h1

theorem pdfParseStep_error_ne_empty (env : PdfEnv) (e : String)
    (h : pdfParseStep env = Except.error e) : e ≠ "" := by
  unfold pdfParseStep at h
  split at h
  · exact absurd h (by simp)
  · split at h
    · split at h
      · exact absurd h (by simp)
      · simp only [Except.error.injEq] at h
        subst h
        exact string_append_ne_empty _ _ (by decide)
    · simp only [Except.error.injEq] at h
      subst h
      exact string_append_ne_empty _ _ (by decide)

theorem attemptPdfConversion_shape (env : PdfEnv) (file : JSFile) :
    (attemptPdfConversion env file).error = none ∨
    ((attemptPdfConversion env file).imageUrl = "" ∧
     (attemptPdfConversion env file).file = none ∧
     (attemptPdfConversion env file).error ≠ none ∧
     (attemptPdfConversion env file).error ≠ some "") := by
  unfold attemptPdfConversion
  repeat' split
  all_goals
    first
      | (left; rfl)
      | (right
         refine ⟨rfl, rfl, by simp [pdfErr], ?_⟩
         simp only [pdfErr, ne_eq, Option.some.injEq]
         first
           | decide
           | exact string_append_ne_empty _ _ (by decide)
           | exact pdfParseStep_error_ne_empty env _ (by assumption))

theorem convertGo_errorShape (att : Nat → PdfAttemptOutcome) (n : Nat)
    (hatt : ∀ j, ∃ r, att j = PdfAttemptOutcome.result r ∧
      (r.error = none ∨
       (r.imageUrl = "" ∧ r.file = none ∧ r.error ≠ none ∧ r.error ≠ some ""))) :
    ∀ (remaining a : Nat) (le : Option (Option String)),
      (convertGo att n a remaining le).1.error = none ∨
      ((convertGo att n a remaining le).1.imageUrl = "" ∧
       (convertGo att n a remaining le).1.file = none ∧
       (convertGo att n a remaining le).1.error ≠ none ∧
       (convertGo att n a remaining le).1.error ≠ some "") := by
  intro remaining
  induction remaining with
  | zero =>
    intro a le
    right
    simp only [convertGo]
    refine ⟨rfl, rfl, by simp [convFailResult], ?_⟩
    simp only [convFailResult, ne_eq, Option.some.injEq]
    exact string_append_ne_empty _ _
      (string_append_ne_empty _ _ (string_append_ne_empty _ _ (by decide)))
  | succ r ih =>
    intro a le
    obtain ⟨rr, hr, hshape⟩ := hatt a
    simp only [convertGo, hr]
    by_cases hcond : (!(rr.error.getD "" == "") && decide (a < n)) = true
    · rw [if_pos hcond]
      exact ih (a + 1) le
    · rw [if_neg hcond]
      exact hshape

/-- C9: `convertPdfToImage` is total at its public interface — it always
returns a `PdfConversionResult` (in the embedding its return type is the
plain result, never an exception) — and every failing result has an empty
`imageUrl`, a null `file`, and a non-empty `error` string. -/
theorem claim_C9_conversion_total_and_failure_shape (envs : Nat → PdfEnv)
    (file : JSFile) (maxRetries : Nat)
    (h : (convertPdfToImage envs file maxRetries).1.error.isSome = true) :
    (convertPdfToImage envs file maxRetries).1.imageUrl = "" ∧
    (convertPdfToImage envs file maxRetries).1.file = none ∧
    (convertPdfToImage envs file maxRetries).1.error ≠ some "" := by
  have hs := convertGo_errorShape
    (fun i => PdfAttemptOutcome.result (attemptPdfConversion (envs i) file)) maxRetries
    (fun j => ⟨attemptPdfConversion (envs j) file, rfl,
      attemptPdfConversion_shape (envs j) file⟩)
    maxRetries 1 none
  rcases hs with h0 | ⟨h1, h2, _h3, h4⟩
  · exact absurd h (by rw [show (convertPdfToImage envs file maxRetries).1.error = none from h0]; simp)
  · exact ⟨h1, h2, h4⟩

/-- Witness for C9: a non-PDF input yields a failing result with empty
image URL, null file and a non-empty error. -/
theorem claim_C9_witness :
    (convertPdfToImage
      (fun _ => ⟨true, Except.ok (), Except.ok 10, Except.ok 1, Except.ok 1,
        Except.ok (), true, true, true, "blob:preview"⟩)
      ⟨"notes.docx", "application/msword", 9⟩ 3).1.error.isSome = true ∧
    ((convertPdfToImage
      (fun _ => ⟨true, Except.ok (), Except.ok 10, Except.ok 1, Except.ok 1,
        Except.ok (), true, true, true, "blob:preview"⟩)
      ⟨"notes.docx", "application/msword", 9⟩ 3).1.imageUrl = "" ∧
     (convertPdfToImage
      (fun _ => ⟨true, Except.ok (), Except.ok 10, Except.ok 1, Except.ok 1,
        Except.ok (), true, true, true, "blob:preview"⟩)
      ⟨"notes.docx", "application/msword", 9⟩ 3).1.file = none ∧
     (convertPdfToImage
      (fun _ => ⟨true, Except.ok (), Except.ok 10, Except.ok 1, Except.ok 1,
        Except.ok (), true, true, true, "blob:preview"⟩)
      ⟨"notes.docx", "application/msword", 9⟩ 3).1.error ≠ some "") :=
  ⟨rfl, claim_C9_conversion_total_and_failure_shape
    (fun _ => ⟨true, Except.ok (), Except.ok 10, Except.ok 1, Except.ok 1,
      Except.ok (), true, true, true, "blob:preview"⟩)
    ⟨"notes.docx", "application/msword", 9⟩ 3 rfl⟩

/-- C5: for every authenticated trial state shown by `TrialTracker`, the
displayed remaining count equals `max - used` and is never negative.
The trial store itself lives outside the sources and is modelled from the
spec by `apiTrialState`; the hypothesis `used ≤ maxUses` is the normal
range of the usage counter (it starts at 0 and is capped at `max`). -/
theorem claim_C5_trial_remaining_display (used maxUses : Int) (h : used ≤ maxUses) :
    ∀ v, TrialTracker true (apiTrialState used maxUses) = some v →
      v.remainingShown = maxUses - used ∧ 0 ≤ v.remainingShown := by
  intro v hv
  have hv2 : v = ⟨used, maxUses, maxUses - used⟩ := by
    simpa [TrialTracker, apiTrialState] using hv.symm
  subst hv2
  exact ⟨rfl, by simp; omega⟩

/-- Witness for C5: an authenticated user with 1 of 3 trials used sees
2 remaining. -/
theorem claim_C5_witness :
    TrialTrackerView.remainingShown ⟨1, 3, 2⟩ = 3 - 1 ∧
    0 ≤ TrialTrackerView.remainingShown ⟨1, 3, 2⟩ :=
  claim_C5_trial_remaining_display 1 3 (by norm_num) ⟨1, 3, 2⟩ (by decide)

/-- C7: whenever the storage layer is initialized (no initialization
error and the bucket handle set), `deleteFile` resolves without error for
every file path, whether or not the existence check or the delete call
succeeds — storage failures inside its try block are only logged. -/
theorem claim_C7_delete_failures_swallowed (st : StorageInit) (b : Bucket)
    (filePath : String) (existsFails deleteFails : Bool)
    (hinit : st.initError = none) (hbucket : st.bucketSet = true) :
    ∃ b2, deleteFile st b filePath existsFails deleteFails = Except.ok b2 := by
  unfold deleteFile
  simp only [ensureInitialized, hinit, hbucket, Bool.not_true, Bool.false_eq_true, if_false]
  by_cases hef : existsFails = true
  · exact ⟨b, by simp [hef]⟩
  · by_cases hex : fileExistsIn b filePath = true
    · by_cases hdf : deleteFails = true
      · exact ⟨b, by simp [hef, hex, hdf]⟩
      · exact ⟨⟨b.files.filter (fun f => f.1 != filePath)⟩, by simp [hef, hex, hdf]⟩
    · exact ⟨b, by simp [hef, hex]⟩

/-- Witness for C7: with the storage initialized, a failing delete call
still resolves. -/
theorem claim_C7_witness :
    ∃ b2, deleteFile ⟨none, true⟩ ⟨[("users/u1/resume.pdf", "pdfbytes")]⟩
      "users/u1/resume.pdf" false true = Except.ok b2 :=
  claim_C7_delete_failures_swallowed ⟨none, true⟩ ⟨[("users/u1/resume.pdf", "pdfbytes")]⟩
    "users/u1/resume.pdf" false true rfl rfl

theorem fileExistsIn_afterCopy (b : Bucket) (src dst : String) (f : String × String)
    (hf : b.files.find? (fun g => g.1 == src) = some f) :
    fileExistsIn ⟨b.files.filter (fun g => g.1 != dst) ++ [(dst, f.2)]⟩ src = true := by
  have hfp := @List.find?_some (String × String) (fun g => g.1 == src) f b.files hf
  have hfs : f.1 = src := by simpa using hfp
  by_cases hsd : src = dst
  · subst hsd
    simp [fileExistsIn]
  · have hmem : f ∈ b.files := List.mem_of_find?_eq_some hf
    have hfilter : f ∈ b.files.filter (fun g => g.1 != dst) := by
      simp only [List.mem_filter]
      exact ⟨hmem, by simp [hfs, hsd]⟩
    simp only [fileExistsIn, List.any_append, Bool.or_eq_true, List.any_eq_true]
    exact Or.inl ⟨f, hfilter, by simp [hfs]⟩

/-- C10: `moveFile` is `copyFile` followed by `deleteFile`; because
`deleteFile` swallows storage failures, `moveFile` resolves whenever the
copy succeeds, even when deleting the source fails — in which case the
source object still exists afterwards. -/
theorem claim_C10_move_resolves_despite_delete_failure (st : StorageInit) (b : Bucket)
    (sourcePath destinationPath : String) (existsFails deleteFails : Bool)
    (hinit : st.initError = none) (hbucket : st.bucketSet = true)
    (hsrc : fileExistsIn b sourcePath = true) :
    ∃ b2, moveFile st b sourcePath destinationPath existsFails deleteFails =
        Except.ok b2 ∧
      ((existsFails = true ∨ deleteFails = true) → fileExistsIn b2 sourcePath = true) := by
  obtain ⟨f, hf⟩ : ∃ f, b.files.find? (fun g => g.1 == sourcePath) = some f := by
    have : (b.files.find? (fun g => g.1 == sourcePath)).isSome := by
      rw [List.find?_isSome]
      simpa [fileExistsIn, List.any_eq_true] using hsrc
    exact Option.isSome_iff_exists.mp this
  have hcopy : copyFile st b sourcePath destinationPath =
      Except.ok ⟨b.files.filter (fun g => g.1 != destinationPath) ++
        [(destinationPath, f.2)]⟩ := by
    unfold copyFile
    simp only [ensureInitialized, hinit, hbucket, Bool.not_true, Bool.false_eq_true,
      if_false, hf]
  have hex2 := fileExistsIn_afterCopy b sourcePath destinationPath f hf
  unfold moveFile
  rw [hcopy]
  unfold deleteFile
  simp only [ensureInitialized, hinit, hbucket, Bool.not_true, Bool.false_eq_true, if_false]
  by_cases hef : existsFails = true
  · exact ⟨⟨b.files.filter (fun g => g.1 != destinationPath) ++ [(destinationPath, f.2)]⟩,
      by simp [hef], fun _ => hex2⟩
  · by_cases hdf : deleteFails = true
    · exact ⟨⟨b.files.filter (fun g => g.1 != destinationPath) ++ [(destinationPath, f.2)]⟩,
        by simp [hef, hdf, hex2], fun _ => hex2⟩
    · refine ⟨⟨(b.files.filter (fun g => g.1 != destinationPath) ++
          [(destinationPath, f.2)]).filter (fun g => g.1 != sourcePath)⟩,
        by simp [hef, hdf, hex2], fun hcase => ?_⟩
      rcases hcase with h | h
      · exact absurd h hef
      · exact absurd h hdf

/-- Witness for C10: copying succeeds and the source survives a failed
delete. -/
theorem claim_C10_witness :
    ∃ b2, moveFile ⟨none, true⟩ ⟨[("tmp/upload.pdf", "x")]⟩ "tmp/upload.pdf"
        "users/u1/final.pdf" false true = Except.ok b2 ∧
      ((false = true ∨ true = true) → fileExistsIn b2 "tmp/upload.pdf" = true) :=
  claim_C10_move_resolves_despite_delete_failure ⟨none, true⟩
    ⟨[("tmp/upload.pdf", "x")]⟩ "tmp/upload.pdf" "users/u1/final.pdf" false true
    rfl rfl (by decide)

/-- C8: on GET, every outcome of the OAuth callback handler is a 302
redirect — never an unredirected error body — and each error case
(provider OAuth error, missing code, missing email, thrown error from
user-info fetch, session creation or state verification) redirects with
the URL-encoded error message in the query string. -/
theorem claim_C8_oauth_errors_redirect :
    (∀ (q : OAuthQuery) (env : OAuthEnv),
       ∃ loc, handler "GET" q env = HttpResponse.redirect 302 loc) ∧
    (∀ (q : OAuthQuery) (env : OAuthEnv) (e : String), q.error = some e → e ≠ "" →
       handler "GET" q env =
         HttpResponse.redirect 302 ("/?error=" ++ encodeURIComponent e)) ∧
    (∀ (q : OAuthQuery) (env : OAuthEnv), q.error.getD "" = "" → q.code.getD "" = "" →
       handler "GET" q env =
         HttpResponse.redirect 302 ("/?error=" ++ encodeURIComponent "missing_code")) ∧
    (∀ (q : OAuthQuery) (env : OAuthEnv) (gu : GoogleUser),
       q.error.getD "" = "" → q.code.getD "" ≠ "" →
       env.getGoogleUserInfo = Except.ok gu → gu.email.getD "" = "" →
       handler "GET" q env =
         HttpResponse.redirect 302 ("/?error=" ++ encodeURIComponent "no_email")) ∧
    (∀ (q : OAuthQuery) (env : OAuthEnv) (e : String),
       q.error.getD "" = "" → q.code.getD "" ≠ "" →
       env.getGoogleUserInfo = Except.error e →
       handler "GET" q env =
         HttpResponse.redirect 302 ("/?error=" ++ encodeURIComponent e)) ∧
    (∀ (q : OAuthQuery) (env : OAuthEnv) (gu : GoogleUser) (e : String),
       q.error.getD "" = "" → q.code.getD "" ≠ "" →
       env.getGoogleUserInfo = Except.ok gu → gu.email.getD "" ≠ "" →
       env.createUserSession = Except.error e →
       handler "GET" q env =
         HttpResponse.redirect 302 ("/?error=" ++ encodeURIComponent e)) := by
  have hopt : (("GET" : String) == "OPTIONS") = false := by decide
  have hget : (("GET" : String) != "GET") = false := by decide
  refine ⟨?_, ?_, ?_, ?_, ?_, ?_⟩
  · intro q env
    unfold handler
    repeat' split
    all_goals
      first
        | exact ⟨_, rfl⟩
        | exact absurd (by assumption : (("GET" : String) == "OPTIONS") = true) (by decide)
  · intro q env e he hne
    have hb : (e == "") = false := beq_eq_false_iff_ne.mpr hne
    simp [handler, hopt, hget, he, hb]
  · intro q env herr hcode
    have hb : (q.error.getD "" == "") = true := by rw [herr]; decide
    have hc : (q.code.getD "" == "") = true := by rw [hcode]; decide
    simp only [handler, hopt, hget, Bool.false_eq_true, if_false, hb, Bool.not_true, hc,
      if_true]
    decide
  · intro q env gu herr hcode hgu hemail
    have hb : (q.error.getD "" == "") = true := by rw [herr]; decide
    have hc : (q.code.getD "" == "") = false := beq_eq_false_iff_ne.mpr hcode
    have he : (gu.email.getD "" == "") = true := by rw [hemail]; decide
    simp only [handler, hopt, hget, Bool.false_eq_true, if_false, hb, Bool.not_true, hc,
      hgu, he, if_true]
    decide
  · intro q env e herr hcode hgu
    have hb : (q.error.getD "" == "") = true := by rw [herr]; decide
    have hc : (q.code.getD "" == "") = false := beq_eq_false_iff_ne.mpr hcode
    simp [handler, hopt, hget, hb, hc, hgu]
  · intro q env gu e herr hcode hgu hemail hsession
    have hb : (q.error.getD "" == "") = true := by rw [herr]; decide
    have hc : (q.code.getD "" == "") = false := beq_eq_false_iff_ne.mpr hcode
    have he : (gu.email.getD "" == "") = false := beq_eq_false_iff_ne.mpr hemail
    simp [handler, hopt, hget, hb, hc, hgu, he, hsession]

/-- Witness for C8: concrete GET requests exercising the provider-error,
missing-code, missing-email and thrown-error paths, each answered by the
302 redirect with the encoded message. -/
theorem claim_C8_witness :
    handler "GET" ⟨none, none, some "access denied"⟩
      ⟨Except.error "unused", Except.error "unused", Except.ok (), Except.ok none⟩ =
      HttpResponse.redirect 302 ("/?error=" ++ encodeURIComponent "access denied") ∧
    handler "GET" ⟨none, none, none⟩
      ⟨Except.error "unused", Except.error "unused", Except.ok (), Except.ok none⟩ =
      HttpResponse.redirect 302 ("/?error=" ++ encodeURIComponent "missing_code") ∧
    handler "GET" ⟨some "4/abc", some "state1", none⟩
      ⟨Except.ok ⟨"gid", "Jo", none⟩, Except.ok "tok", Except.ok (), Except.ok none⟩ =
      HttpResponse.redirect 302 ("/?error=" ++ encodeURIComponent "no_email") ∧
    handler "GET" ⟨some "4/abc", some "state1", none⟩
      ⟨Except.error "invalid_grant: code expired", Except.ok "tok", Except.ok (),
        Except.ok none⟩ =
      HttpResponse.redirect 302
        ("/?error=" ++ encodeURIComponent "invalid_grant: code expired") ∧
    handler "GET" ⟨some "4/abc", some "state1", none⟩
      ⟨Except.ok ⟨"gid", "Jo", some "jo@example.com"⟩, Except.error "db unreachable",
        Except.ok (), Except.ok none⟩ =
      HttpResponse.redirect 302 ("/?error=" ++ encodeURIComponent "db unreachable") :=
  ⟨claim_C8_oauth_errors_redirect.2.1 ⟨none, none, some "access denied"⟩
      ⟨Except.error "unused", Except.error "unused", Except.ok (), Except.ok none⟩
      "access denied" rfl (by decide),
   claim_C8_oauth_errors_redirect.2.2.1 ⟨none, none, none⟩
      ⟨Except.error "unused", Except.error "unused", Except.ok (), Except.ok none⟩
      rfl rfl,
   claim_C8_oauth_errors_redirect.2.2.2.1 ⟨some "4/abc", some "state1", none⟩
      ⟨Except.ok ⟨"gid", "Jo", none⟩, Except.ok "tok", Except.ok (), Except.ok none⟩
      ⟨"gid", "Jo", none⟩ rfl (by decide) rfl rfl,
   claim_C8_oauth_errors_redirect.2.2.2.2.1 ⟨some "4/abc", some "state1", none⟩
      ⟨Except.error "invalid_grant: code expired", Except.ok "tok", Except.ok (),
        Except.ok none⟩
      "invalid_grant: code expired" rfl (by decide) rfl,
   claim_C8_oauth_errors_redirect.2.2.2.2.2 ⟨some "4/abc", some "state1", none⟩
      ⟨Except.ok ⟨"gid", "Jo", some "jo@example.com"⟩, Except.error "db unreachable",
        Except.ok (), Except.ok none⟩
      ⟨"gid", "Jo", some "jo@example.com"⟩ "db unreachable" rfl (by decide) rfl
      (by decide) rfl⟩

theorem list_set_getElem_self {α : Type} (l : List α) (i : Nat) (h : i < l.length) :
    l.set i l[i] = l := by
  apply List.ext_getElem?
  intro n
  by_cases hn : i = n
  · subst hn
    rw [List.getElem?_set_self h, List.getElem?_eq_getElem h]
  · rw [List.getElem?_set_ne hn]

theorem insertUser_resumes (db : DB) (u : UserRow) :
    (insertUserOnConflictEmail db u).1.resumes = db.resumes := by
  unfold insertUserOnConflictEmail
  cases db.users.findIdx? (fun w => w.email == u.email) <;> rfl

theorem insertUser_sessions (db : DB) (u : UserRow) :
    (insertUserOnConflictEmail db u).1.sessions = db.sessions := by
  unfold insertUserOnConflictEmail
  cases db.users.findIdx? (fun w => w.email == u.email) <;> rfl

theorem insertUser_kv (db : DB) (u : UserRow) :
    (insertUserOnConflictEmail db u).1.kv = db.kv := by
  unfold insertUserOnConflictEmail
  cases db.users.findIdx? (fun w => w.email == u.email) <;> rfl

theorem insertKV_users (db : DB) (key value : String) (userId : Nat) :
    (insertKV db key value userId).users = db.users := by
  unfold insertKV
  cases db.kv.findIdx? (fun w => w.key == key && w.userId == userId) <;> rfl

theorem insertKV_resumes (db : DB) (key value : String) (userId : Nat) :
    (insertKV db key value userId).resumes = db.resumes := by
  unfold insertKV
  cases db.kv.findIdx? (fun w => w.key == key && w.userId == userId) <;> rfl

theorem insertKV_sessions (db : DB) (key value : String) (userId : Nat) :
    (insertKV db key value userId).sessions = db.sessions := by
  unfold insertKV
  cases db.kv.findIdx? (fun w => w.key == key && w.userId == userId) <;> rfl

theorem insertUser_emails (db : DB) (u : UserRow) :
    (insertUserOnConflictEmail db u).1.users.map UserRow.email =
      if u.email ∈ db.users.map UserRow.email then db.users.map UserRow.email
      else db.users.map UserRow.email ++ [u.email] := by
  unfold insertUserOnConflictEmail
  cases hidx : db.users.findIdx? (fun w => w.email == u.email) with
  | none =>
    have hmem : u.email ∉ db.users.map UserRow.email := by
      rw [List.findIdx?_eq_none_iff] at hidx
      intro hmem
      obtain ⟨w, hw, hwe⟩ := List.mem_map.mp hmem
      have := hidx w hw
      rw [hwe] at this
      simp at this
    rw [if_neg hmem]
    simp
  | some i =>
    obtain ⟨hlt, hp, _⟩ := List.findIdx?_eq_some_iff_getElem.mp hidx
    have heq : db.users[i].email = u.email := by simpa using hp
    have hmem : u.email ∈ db.users.map UserRow.email := by
      rw [← heq]
      exact List.mem_map_of_mem UserRow.email (db.users.getElem_mem hlt)
    rw [if_pos hmem]
    have hgetD : db.users.getD i u = db.users[i] := by
      simp [List.getD_eq_getElem?_getD, List.getElem?_eq_getElem hlt]
    simp only [hgetD, List.map_set]
    have hemail : UserRow.email { db.users[i] with name := u.name } =
        (db.users.map UserRow.email).get ⟨i, by simpa using hlt⟩ := by
      simp
    rw [hemail]
    exact list_set_getElem_self _ i (by simpa using hlt)

theorem insertUser_users_length_of_mem (db : DB) (u : UserRow)
    (h : u.email ∈ db.users.map UserRow.email) :
    (insertUserOnConflictEmail db u).1.users.length = db.users.length := by
  have he := insertUser_emails db u
  rw [if_pos h] at he
  have := congrArg List.length he
  simpa using this

theorem insertUser_email_mem (db : DB) (u : UserRow) (e : String)
    (h : e ∈ db.users.map UserRow.email) :
    e ∈ (insertUserOnConflictEmail db u).1.users.map UserRow.email := by
  rw [insertUser_emails]
  split
  · exact h
  · exact List.mem_append_left _ h

theorem insertUser_email_self (db : DB) (u : UserRow) :
    u.email ∈ (insertUserOnConflictEmail db u).1.users.map UserRow.email := by
  rw [insertUser_emails]
  split
  · assumption
  · exact List.mem_append_right _ (List.mem_singleton.mpr rfl)

theorem insertUser_emails_extension (db : DB) (u : UserRow) :
    ∃ L, (insertUserOnConflictEmail db u).1.users.map UserRow.email =
      db.users.map UserRow.email ++ L := by
  rw [insertUser_emails]
  split
  · exact ⟨[], by simp⟩
  · exact ⟨[u.email], rfl⟩

theorem insertUser_id (db : DB) (u : UserRow) :
    (insertUserOnConflictEmail db u).2 =
      match (db.users.map UserRow.email).findIdx? (fun x => x == u.email) with
      | some i => i + 1
      | none => db.users.length + 1 := by
  unfold insertUserOnConflictEmail
  simp only [List.findIdx?_map]
  have hcomp : ((fun x => x == u.email) ∘ UserRow.email) =
      (fun w : UserRow => w.email == u.email) := rfl
  rw [hcomp]
  cases hidx : db.users.findIdx? (fun w => w.email == u.email) <;> simp [hidx]

theorem findIdx?_append_some {α : Type} {l : List α} {p : α → Bool} {i : Nat}
    (h : l.findIdx? p = some i) (l2 : List α) : (l ++ l2).findIdx? p = some i := by
  rw [List.findIdx?_append, h]
  rfl

theorem mem_findIdx?_isSome (l : List String) (e : String) (h : e ∈ l) :
    ∃ i, l.findIdx? (fun x => x == e) = some i := by
  cases hidx : l.findIdx? (fun x => x == e) with
  | none =>
    rw [List.findIdx?_eq_none_iff] at hidx
    have := hidx e h
    simp at this
  | some i => exact ⟨i, rfl⟩

theorem not_mem_findIdx?_none (l : List String) (e : String) (h : e ∉ l) :
    l.findIdx? (fun x => x == e) = none := by
  rw [List.findIdx?_eq_none_iff]
  intro x hx
  by_cases hxe : x = e
  · exact absurd (hxe ▸ hx) h
  · simp [hxe]

theorem insertKV_keys (db : DB) (key value : String) (userId : Nat) :
    (insertKV db key value userId).kv.map (fun w => (w.key, w.userId)) =
      if (key, userId) ∈ db.kv.map (fun w => (w.key, w.userId)) then
        db.kv.map (fun w => (w.key, w.userId))
      else db.kv.map (fun w => (w.key, w.userId)) ++ [(key, userId)] := by
  unfold insertKV
  cases hidx : db.kv.findIdx? (fun w => w.key == key && w.userId == userId) with
  | none =>
    have hmem : (key, userId) ∉ db.kv.map (fun w => (w.key, w.userId)) := by
      rw [List.findIdx?_eq_none_iff] at hidx
      intro hmem
      obtain ⟨w, hw, hwe⟩ := List.mem_map.mp hmem
      have := hidx w hw
      have h1 : w.key = key := congrArg Prod.fst hwe
      have h2 : w.userId = userId := congrArg Prod.snd hwe
      rw [h1, h2] at this
      simp at this
    rw [if_neg hmem]
    simp
  | some i =>
    obtain ⟨hlt, hp, _⟩ := List.findIdx?_eq_some_iff_getElem.mp hidx
    have hk : db.kv[i].key = key ∧ db.kv[i].userId = userId := by
      constructor <;> [skip; skip] <;> simp_all
    have hmem : (key, userId) ∈ db.kv.map (fun w => (w.key, w.userId)) := by
      have : (fun w : KVRow => (w.key, w.userId)) db.kv[i] = (key, userId) := by
        simp [hk.1, hk.2]
      rw [← this]
      exact List.mem_map_of_mem _ (db.kv.getElem_mem hlt)
    rw [if_pos hmem]
    have hgetD : db.kv.getD i ⟨key, value, userId⟩ = db.kv[i] := by
      simp [List.getD_eq_getElem?_getD, List.getElem?_eq_getElem hlt]
    simp only [hgetD, List.map_set]
    have hpair : (db.kv[i].key, db.kv[i].userId) =
        (db.kv.map (fun w => (w.key, w.userId))).get ⟨i, by simpa using hlt⟩ := by
      simp
    rw [hpair]
    exact list_set_getElem_self _ i (by simpa using hlt)

theorem insertKV_kv_length_of_mem (db : DB) (key value : String) (userId : Nat)
    (h : (key, userId) ∈ db.kv.map (fun w => (w.key, w.userId))) :
    (insertKV db key value userId).kv.length = db.kv.length := by
  have he := insertKV_keys db key value userId
  rw [if_pos h] at he
  have := congrArg List.length he
  simpa using this

theorem insertKV_key_mem (db : DB) (key value : String) (userId : Nat)
    (x : String × Nat) (h : x ∈ db.kv.map (fun w => (w.key, w.userId))) :
    x ∈ (insertKV db key value userId).kv.map (fun w => (w.key, w.userId)) := by
  rw [insertKV_keys]
  split
  · exact h
  · exact List.mem_append_left _ h

theorem insertKV_key_self (db : DB) (key value : String) (userId : Nat) :
    (key, userId) ∈ (insertKV db key value userId).kv.map (fun w => (w.key, w.userId)) := by
  rw [insertKV_keys]
  split
  · assumption
  · exact List.mem_append_right _ (List.mem_singleton.mpr rfl)

theorem insertResume_users (db : DB) (r : ResumeRow) : (insertResume db r).users = db.users := rfl

theorem insertResume_sessions (db : DB) (r : ResumeRow) :
    (insertResume db r).sessions = db.sessions := rfl

theorem insertResume_kv (db : DB) (r : ResumeRow) : (insertResume db r).kv = db.kv := rfl

theorem insertResume_resumes (db : DB) (r : ResumeRow) :
    (insertResume db r).resumes = db.resumes ++ [r] := rfl

theorem insertSession_users (db : DB) (s : SessionRow) :
    (insertSession db s).users = db.users := rfl

theorem insertSession_resumes (db : DB) (s : SessionRow) :
    (insertSession db s).resumes = db.resumes := rfl

theorem insertSession_kv (db : DB) (s : SessionRow) : (insertSession db s).kv = db.kv := rfl

theorem insertSession_sessions (db : DB) (s : SessionRow) :
    (insertSession db s).sessions = db.sessions ++ [s] := rfl

theorem seedData_resumes_length (db : DB) (u1 u2 u3 t1 t2 t3 nowIso : String) :
    (seedData db u1 u2 u3 t1 t2 t3 nowIso).resumes.length = db.resumes.length + 3 := by
  unfold seedData
  simp only [insertKV_resumes, insertSession_resumes, insertResume_resumes,
    insertUser_resumes, List.length_append]
  rfl

theorem seedData_sessions_length (db : DB) (u1 u2 u3 t1 t2 t3 nowIso : String) :
    (seedData db u1 u2 u3 t1 t2 t3 nowIso).sessions.length = db.sessions.length + 3 := by
  unfold seedData
  simp only [insertKV_sessions, insertSession_sessions, insertResume_sessions,
    insertUser_sessions, List.length_append]
  rfl

theorem seedData_users (db : DB) (u1 u2 u3 t1 t2 t3 nowIso : String) :
    (seedData db u1 u2 u3 t1 t2 t3 nowIso).users =
      (insertUserOnConflictEmail
        (insertUserOnConflictEmail
          (insertUserOnConflictEmail db
            ⟨u1, "John Developer", "john@example.com", "free", 1, 3⟩).1
          ⟨u2, "Jane Engineer", "jane@example.com", "pro", 3, 3⟩).1
        ⟨u3, "Test User", "test@example.com", "free", 0, 3⟩).1.users := by
  unfold seedData
  simp only [insertKV_users, insertSession_users, insertResume_users]

theorem applyDdl_done (s : Schema) (op : DdlOp) : doneDdl (applyDdl s op) op := by
  cases op with
  | createTable t =>
    by_cases h : t ∈ s.tables <;> simp [applyDdl, doneDdl, h]
  | addColumn t c =>
    by_cases h : (t, c) ∈ s.columns <;> simp [applyDdl, doneDdl, h]
  | createIndex i =>
    by_cases h : i ∈ s.indexes <;> simp [applyDdl, doneDdl, h]

theorem applyDdl_skip (s : Schema) (op : DdlOp) (h : doneDdl s op) : applyDdl s op = s := by
  cases op <;> simp_all [applyDdl, doneDdl]

theorem applyDdl_mono (s : Schema) (op op' : DdlOp) (h : doneDdl s op) :
    doneDdl (applyDdl s op') op := by
  cases op' with
  | createTable t' =>
    cases op <;> simp_all [applyDdl, doneDdl] <;> split <;> simp_all
  | addColumn t' c' =>
    cases op <;> simp_all [applyDdl, doneDdl] <;> split <;> simp_all
  | createIndex i' =>
    cases op <;> simp_all [applyDdl, doneDdl] <;> split <;> simp_all

theorem foldl_applyDdl_mono (ops : List DdlOp) :
    ∀ (s : Schema) (op : DdlOp), doneDdl s op → doneDdl (ops.foldl applyDdl s) op := by
  induction ops with
  | nil => intro s op h; exact h
  | cons o os ih =>
    intro s op h
    exact ih (applyDdl s o) op (applyDdl_mono s op o h)

theorem foldl_applyDdl_all_done (ops : List DdlOp) :
    ∀ (s : Schema) (op : DdlOp), op ∈ ops → doneDdl (ops.foldl applyDdl s) op := by
  induction ops with
  | nil => intro s op h; exact absurd h (List.not_mem_nil op)
  | cons o os ih =>
    intro s op h
    rcases List.mem_cons.mp h with rfl | hmem
    · exact foldl_applyDdl_mono os (applyDdl s op) op (applyDdl_done s op)
    · exact ih (applyDdl s o) op hmem

theorem foldl_applyDdl_skip (ops : List DdlOp) :
    ∀ (s : Schema), (∀ op ∈ ops, doneDdl s op) → ops.foldl applyDdl s = s := by
  induction ops with
  | nil => intro s _; rfl
  | cons o os ih =>
    intro s h
    have ho := applyDdl_skip s o (h o (List.mem_cons_self o os))
    rw [List.foldl_cons, ho]
    exact ih s (fun op hop => h op (List.mem_cons_of_mem o hop))

theorem runMigrations_idempotent (s : Schema) :
    runMigrations (runMigrations s) = runMigrations s := by
  unfold runMigrations
  exact foldl_applyDdl_skip _ _ (fun op hop => foldl_applyDdl_all_done _ s op hop)

theorem seedData_emails_present (db : DB) (u1 u2 u3 t1 t2 t3 nowIso : String) :
    "john@example.com" ∈ (seedData db u1 u2 u3 t1 t2 t3 nowIso).users.map UserRow.email ∧
    "jane@example.com" ∈ (seedData db u1 u2 u3 t1 t2 t3 nowIso).users.map UserRow.email ∧
    "test@example.com" ∈ (seedData db u1 u2 u3 t1 t2 t3 nowIso).users.map UserRow.email := by
  rw [seedData_users]
  refine ⟨?_, ?_, ?_⟩
  · exact insertUser_email_mem _ _ _ (insertUser_email_mem _ _ _ (insertUser_email_self _ _))
  · exact insertUser_email_mem _ _ _ (insertUser_email_self _ _)
  · exact insertUser_email_self _ _

theorem seedData_users_length_of_present (db : DB) (u1 u2 u3 t1 t2 t3 nowIso : String)
    (h1 : "john@example.com" ∈ db.users.map UserRow.email)
    (h2 : "jane@example.com" ∈ db.users.map UserRow.email)
    (h3 : "test@example.com" ∈ db.users.map UserRow.email) :
    (seedData db u1 u2 u3 t1 t2 t3 nowIso).users.length = db.users.length := by
  have hu := seedData_users db u1 u2 u3 t1 t2 t3 nowIso
  rw [show (seedData db u1 u2 u3 t1 t2 t3 nowIso).users.length =
    ((insertUserOnConflictEmail
      (insertUserOnConflictEmail
        (insertUserOnConflictEmail db
          ⟨u1, "John Developer", "john@example.com", "free", 1, 3⟩).1
        ⟨u2, "Jane Engineer", "jane@example.com", "pro", 3, 3⟩).1
      ⟨u3, "Test User", "test@example.com", "free", 0, 3⟩).1.users.length) from congrArg _ hu]
  rw [insertUser_users_length_of_mem _ _
    (insertUser_email_mem _ _ _ (insertUser_email_mem _ _ _ h3))]
  rw [insertUser_users_length_of_mem _ _ (insertUser_email_mem _ _ _ h2)]
  rw [insertUser_users_length_of_mem _ _ h1]

theorem seedData_emails_extension_over_first (db : DB)
    (u1 u2 u3 t1 t2 t3 nowIso : String) :
    ∃ L, (seedData db u1 u2 u3 t1 t2 t3 nowIso).users.map UserRow.email =
      (insertUserOnConflictEmail db
        ⟨u1, "John Developer", "john@example.com", "free", 1, 3⟩).1.users.map
          UserRow.email ++ L := by
  rw [seedData_users]
  obtain ⟨L2, h2⟩ := insertUser_emails_extension
    (insertUserOnConflictEmail db
      ⟨u1, "John Developer", "john@example.com", "free", 1, 3⟩).1
    ⟨u2, "Jane Engineer", "jane@example.com", "pro", 3, 3⟩
  obtain ⟨L3, h3⟩ := insertUser_emails_extension
    (insertUserOnConflictEmail
      (insertUserOnConflictEmail db
        ⟨u1, "John Developer", "john@example.com", "free", 1, 3⟩).1
      ⟨u2, "Jane Engineer", "jane@example.com", "pro", 3, 3⟩).1
    ⟨u3, "Test User", "test@example.com", "free", 0, 3⟩
  exact ⟨L2 ++ L3, by rw [h3, h2, List.append_assoc]⟩

theorem seedData_john_id_stable (db : DB) (u1 u2 u3 t1 t2 t3 nowIso uNew : String) :
    (insertUserOnConflictEmail (seedData db u1 u2 u3 t1 t2 t3 nowIso)
      ⟨uNew, "John Developer", "john@example.com", "free", 1, 3⟩).2 =
    (insertUserOnConflictEmail db
      ⟨u1, "John Developer", "john@example.com", "free", 1, 3⟩).2 := by
  rw [insertUser_id, insertUser_id]
  obtain ⟨L, hL⟩ := seedData_emails_extension_over_first db u1 u2 u3 t1 t2 t3 nowIso
  by_cases hmem : "john@example.com" ∈ db.users.map UserRow.email
  · obtain ⟨i, hidx⟩ := mem_findIdx?_isSome _ _ hmem
    have hE1 : (insertUserOnConflictEmail db
        ⟨u1, "John Developer", "john@example.com", "free", 1, 3⟩).1.users.map
          UserRow.email = db.users.map UserRow.email := by
      rw [insertUser_emails]
      exact if_pos hmem
    rw [hE1] at hL
    rw [hL, findIdx?_append_some hidx L, hidx]
  · have hnone := not_mem_findIdx?_none _ _ hmem
    have hE1 : (insertUserOnConflictEmail db
        ⟨u1, "John Developer", "john@example.com", "free", 1, 3⟩).1.users.map
          UserRow.email = db.users.map UserRow.email ++ ["john@example.com"] := by
      rw [insertUser_emails]
      exact if_neg hmem
    have hfirst : (db.users.map UserRow.email ++ ["john@example.com"]).findIdx?
        (fun x => x == "john@example.com") = some (db.users.map UserRow.email).length := by
      rw [List.findIdx?_append, hnone]
      simp
    rw [hE1] at hL
    rw [hL, findIdx?_append_some hfirst L, hnone]
    simp

theorem seedData_pre_kv (db : DB) (u1 u2 u3 t1 t2 t3 nowIso : String) :
    ∃ dbPre : DB, seedData db u1 u2 u3 t1 t2 t3 nowIso =
      insertKV (insertKV dbPre "last_analysis_date" nowIso
        (insertUserOnConflictEmail db
          ⟨u1, "John Developer", "john@example.com", "free", 1, 3⟩).2)
        "preferences" "\x7b\"theme\":\"dark\",\"notifications\":true\x7d"
        (insertUserOnConflictEmail db
          ⟨u1, "John Developer", "john@example.com", "free", 1, 3⟩).2 ∧
      dbPre.kv = db.kv := by
  refine ⟨_, rfl, ?_⟩
  simp only [insertSession_kv, insertResume_kv, insertUser_kv]

theorem seedData_kv_keys_mem (db : DB) (u1 u2 u3 t1 t2 t3 nowIso : String) :
    ("last_analysis_date",
      (insertUserOnConflictEmail db
        ⟨u1, "John Developer", "john@example.com", "free", 1, 3⟩).2) ∈
      (seedData db u1 u2 u3 t1 t2 t3 nowIso).kv.map (fun w => (w.key, w.userId)) ∧
    ("preferences",
      (insertUserOnConflictEmail db
        ⟨u1, "John Developer", "john@example.com", "free", 1, 3⟩).2) ∈
      (seedData db u1 u2 u3 t1 t2 t3 nowIso).kv.map (fun w => (w.key, w.userId)) := by
  obtain ⟨dbPre, hEq, _⟩ := seedData_pre_kv db u1 u2 u3 t1 t2 t3 nowIso
  rw [hEq]
  constructor
  · exact insertKV_key_mem _ _ _ _ _ (insertKV_key_self _ _ _ _)
  · exact insertKV_key_self _ _ _ _

theorem seedData_kv_length_of_mem (db : DB) (u1 u2 u3 t1 t2 t3 nowIso : String)
    (h1 : ("last_analysis_date",
        (insertUserOnConflictEmail db
          ⟨u1, "John Developer", "john@example.com", "free", 1, 3⟩).2) ∈
      db.kv.map (fun w => (w.key, w.userId)))
    (h2 : ("preferences",
        (insertUserOnConflictEmail db
          ⟨u1, "John Developer", "john@example.com", "free", 1, 3⟩).2) ∈
      db.kv.map (fun w => (w.key, w.userId))) :
    (seedData db u1 u2 u3 t1 t2 t3 nowIso).kv.length = db.kv.length := by
  obtain ⟨dbPre, hEq, hKv⟩ := seedData_pre_kv db u1 u2 u3 t1 t2 t3 nowIso
  rw [hEq]
  have hK : dbPre.kv.map (fun w => (w.key, w.userId)) =
      db.kv.map (fun w => (w.key, w.userId)) := by rw [hKv]
  have m1 : ("last_analysis_date",
      (insertUserOnConflictEmail db
        ⟨u1, "John Developer", "john@example.com", "free", 1, 3⟩).2) ∈
      dbPre.kv.map (fun w => (w.key, w.userId)) := by rw [hK]; exact h1
  have m2 : ("preferences",
      (insertUserOnConflictEmail db
        ⟨u1, "John Developer", "john@example.com", "free", 1, 3⟩).2) ∈
      (insertKV dbPre "last_analysis_date" nowIso
        (insertUserOnConflictEmail db
          ⟨u1, "John Developer", "john@example.com", "free", 1, 3⟩).2).kv.map
        (fun w => (w.key, w.userId)) :=
    insertKV_key_mem _ _ _ _ _ (by rw [hK]; exact h2)
  rw [insertKV_kv_length_of_mem _ _ _ _ m2]
  rw [insertKV_kv_length_of_mem _ _ _ _ m1]
  rw [hKv]

/-- Counterexample for C6: running the seed script a second time on a
database already seeded from empty doubles the `resumes` and `sessions`
row counts (3 to 6) — those inserts carry no conflict clause, so the
second run duplicates them. -/
theorem claim_C6_counterexample :
    (seedData ⟨[], [], [], []⟩ "u1" "u2" "u3" "s1" "s2" "s3"
      "2026-10-01T00:00:00Z").resumes.length = 3 ∧
    (seedData (seedData ⟨[], [], [], []⟩ "u1" "u2" "u3" "s1" "s2" "s3"
      "2026-10-01T00:00:00Z") "u4" "u5" "u6" "s4" "s5" "s6"
      "2026-10-02T00:00:00Z").resumes.length = 6 ∧
    (seedData ⟨[], [], [], []⟩ "u1" "u2" "u3" "s1" "s2" "s3"
      "2026-10-01T00:00:00Z").sessions.length = 3 ∧
    (seedData (seedData ⟨[], [], [], []⟩ "u1" "u2" "u3" "s1" "s2" "s3"
      "2026-10-01T00:00:00Z") "u4" "u5" "u6" "s4" "s5" "s6"
      "2026-10-02T00:00:00Z").sessions.length = 6 :=
  ⟨rfl, rfl, rfl, rfl⟩

/-- C6 (amended): the migration runner is idempotent (all its DDL is
guarded), and re-running the seed script leaves the `users` and
`kv_store` row counts unchanged (those inserts are upserts over the
unique constraints), but appends three new `resumes` rows and three new
`sessions` rows on every run — the seed script is not idempotent for
those two tables. -/
theorem claim_C6_amended_seed_partial_idempotence :
    ∀ (db : DB) (u1 u2 u3 t1 t2 t3 n1 u4 u5 u6 t4 t5 t6 n2 : String) (s : Schema),
      (seedData (seedData db u1 u2 u3 t1 t2 t3 n1) u4 u5 u6 t4 t5 t6 n2).users.length =
        (seedData db u1 u2 u3 t1 t2 t3 n1).users.length ∧
      (seedData (seedData db u1 u2 u3 t1 t2 t3 n1) u4 u5 u6 t4 t5 t6 n2).kv.length =
        (seedData db u1 u2 u3 t1 t2 t3 n1).kv.length ∧
      (seedData (seedData db u1 u2 u3 t1 t2 t3 n1) u4 u5 u6 t4 t5 t6 n2).resumes.length =
        (seedData db u1 u2 u3 t1 t2 t3 n1).resumes.length + 3 ∧
      (seedData (seedData db u1 u2 u3 t1 t2 t3 n1) u4 u5 u6 t4 t5 t6 n2).sessions.length =
        (seedData db u1 u2 u3 t1 t2 t3 n1).sessions.length + 3 ∧
      runMigrations (runMigrations s) = runMigrations s := by
  intro db u1 u2 u3 t1 t2 t3 n1 u4 u5 u6 t4 t5 t6 n2 s
  obtain ⟨hjohn, hjane, htest⟩ := seedData_emails_present db u1 u2 u3 t1 t2 t3 n1
  refine ⟨seedData_users_length_of_present _ u4 u5 u6 t4 t5 t6 n2 hjohn hjane htest, ?_,
    seedData_resumes_length _ u4 u5 u6 t4 t5 t6 n2,
    seedData_sessions_length _ u4 u5 u6 t4 t5 t6 n2,
    runMigrations_idempotent s⟩
  apply seedData_kv_length_of_mem
  · rw [seedData_john_id_stable db u1 u2 u3 t1 t2 t3 n1 u4]
    exact (seedData_kv_keys_mem db u1 u2 u3 t1 t2 t3 n1).1
  · rw [seedData_john_id_stable db u1 u2 u3 t1 t2 t3 n1 u4]
    exact (seedData_kv_keys_mem db u1 u2 u3 t1 t2 t3 n1).2
